import Mathlib

/-!
Verification of the codexmcp server (src/codexmcp/server.py).

The development embeds, faithfully to the Python source:
  * a JSON value type and a parser modelling `json.loads` (strict mode,
    including the NaN/Infinity extensions and last-write-wins duplicate keys);
  * Python `str.strip`, the reconnect regex `^Reconnecting\.\.\.\s+\d+/\d+$`
    as used by `re.match`, and `repr` of a string (used by the `{line!r}`
    format in the unexpected-error diagnostic);
  * the aggregation loop of the `codex` tool (lines 228-283) as a fold
    `step` over the input lines, with a `broken` flag modelling the `break`
    of the `except Exception` handler, and `finalize` modelling the
    post-loop verdict;
  * the stream orchestrator `run_shell_command` (lines 29-105) as a
    small-step interleaving system between the producer thread and the
    consuming generator loop;
  * `windows_escape` (lines 107-128) as the chain of single-character
    replaces performed by the Python code.
-/

/-- Characters used pervasively; named to keep literals unambiguous. -/
def bsChar : Char := Char.ofNat 92

def dqChar : Char := Char.ofNat 34

def sqChar : Char := Char.ofNat 39

def lbraceChar : Char := Char.ofNat 123

def rbraceChar : Char := Char.ofNat 125

/-- JSON values as produced by `json.loads`.  Numbers keep their source
lexeme: the aggregator never computes with numbers, so float semantics are
irrelevant; only the structural shape matters. -/
inductive Json where
  | null
  | bool (b : Bool)
  | num (lit : String)
  | str (s : String)
  | arr (xs : List Json)
  | obj (fields : List (String × Json))

/-- Python dict `.get k` on the object built by `json.loads`: with duplicate
keys the later pair wins, exactly as repeated insertion into a Python dict. -/
def dictGet : List (String × Json) → String → Option Json
  | [], _ => none
  | (k2, v) :: t, k =>
    match dictGet t k with
    | some r => some r
    | none => if k2 = k then some v else none

/-- Python dict `.get k default`: the default is used only when the key is absent
(a key mapped to JSON `null` yields `Json.null`, not the default). -/
def dictGetD (fs : List (String × Json)) (k : String) (d : Json) : Json :=
  (dictGet fs k).getD d

/-- JSON whitespace skipped by the Python decoder: space, tab, LF, CR. -/
def isJsonWs (c : Char) : Bool :=
  c = ' ' || c = Char.ofNat 9 || c = Char.ofNat 10 || c = Char.ofNat 13

def skipWs (cs : List Char) : List Char := cs.dropWhile isJsonWs

def hexVal (c : Char) : Option Nat :=
  if 48 ≤ c.toNat && c.toNat ≤ 57 then some (c.toNat - 48)
  else if 97 ≤ c.toNat && c.toNat ≤ 102 then some (c.toNat - 87)
  else if 65 ≤ c.toNat && c.toNat ≤ 70 then some (c.toNat - 55)
  else none

/-- Body of a JSON string literal (after the opening quote), strict mode:
raw control characters below 0x20 are rejected, the standard escapes are
recognised.  `\uXXXX` is mapped through `Char.ofNat` (surrogate pairing is
not modelled; no claim depends on it). -/
def parseStringBody : Nat → List Char → List Char → Option (String × List Char)
  | 0, _, _ => none
  | _ + 1, [], _ => none
  | f + 1, c :: rest, acc =>
    if c = dqChar then some (String.mk acc.reverse, rest)
    else if c = bsChar then
      match rest with
      | [] => none
      | e :: rest2 =>
        if e = dqChar then parseStringBody f rest2 (dqChar :: acc)
        else if e = bsChar then parseStringBody f rest2 (bsChar :: acc)
        else if e = Char.ofNat 47 then parseStringBody f rest2 (Char.ofNat 47 :: acc)
        else if e = 'b' then parseStringBody f rest2 (Char.ofNat 8 :: acc)
        else if e = 'f' then parseStringBody f rest2 (Char.ofNat 12 :: acc)
        else if e = 'n' then parseStringBody f rest2 (Char.ofNat 10 :: acc)
        else if e = 'r' then parseStringBody f rest2 (Char.ofNat 13 :: acc)
        else if e = 't' then parseStringBody f rest2 (Char.ofNat 9 :: acc)
        else if e = 'u' then
          match rest2 with
          | h1 :: h2 :: h3 :: h4 :: rest3 =>
            match hexVal h1, hexVal h2, hexVal h3, hexVal h4 with
            | some a, some b, some c3, some d =>
              parseStringBody f rest3 (Char.ofNat (a * 4096 + b * 256 + c3 * 16 + d) :: acc)
            | _, _, _, _ => none
          | _ => none
        else none
    else if c.toNat < 32 then none
    else parseStringBody f rest (c :: acc)

/-- Fraction part: `.digits`, or nothing.  `none` means a malformed
fraction (a dot not followed by a digit). -/
def parseFrac (r1 : List Char) : Option (List Char × List Char) :=
  match r1 with
  | d :: t2 =>
    if d = '.' then
      let ds := t2.takeWhile Char.isDigit
      if ds.isEmpty then none
      else some (d :: ds, t2.dropWhile Char.isDigit)
    else some ([], r1)
  | [] => some ([], r1)

/-- Exponent part: `[eE][+-]?digits`, or nothing. -/
def parseExp (r2 : List Char) : Option (List Char × List Char) :=
  match r2 with
  | e :: t3 =>
    if e = 'e' || e = 'E' then
      let (es, t4) :=
        match t3 with
        | s :: t5 =>
          if s = Char.ofNat 43 || s = Char.ofNat 45 then ([s], t5)
          else (([] : List Char), t3)
        | [] => (([] : List Char), t3)
      let ds := t4.takeWhile Char.isDigit
      if ds.isEmpty then none
      else some (e :: (es ++ ds), t4.dropWhile Char.isDigit)
    else some ([], r2)
  | [] => some ([], r2)

/-- Number grammar of JSON: optional minus, integer part without leading
zeros, optional fraction, optional exponent.  Returns the lexeme. -/
def parseNumber (cs : List Char) : Option (String × List Char) :=
  let (sgn, cs1) :=
    match cs with
    | c :: t => if c = Char.ofNat 45 then ([c], t) else (([] : List Char), cs)
    | [] => (([] : List Char), cs)
  match cs1 with
  | [] => none
  | c :: t =>
    if !c.isDigit then none
    else
      let (ip, r1) :=
        if c = '0' then ([c], t)
        else (c :: t.takeWhile Char.isDigit, t.dropWhile Char.isDigit)
      match parseFrac r1 with
      | none => none
      | some (fp, r2) =>
        match parseExp r2 with
        | none => none
        | some (ep, r3) => some (String.mk (sgn ++ ip ++ fp ++ ep), r3)

/-- Items of a JSON array after the opening bracket (at least one value). -/
def parseArrItems (pv : List Char → Option (Json × List Char)) :
    Nat → List Char → Option (List Json × List Char)
  | 0, _ => none
  | f + 1, cs =>
    match pv (skipWs cs) with
    | none => none
    | some (v, rest) =>
      match skipWs rest with
      | c :: rest2 =>
        if c = ',' then
          match parseArrItems pv f rest2 with
          | some (vs, r) => some (v :: vs, r)
          | none => none
        else if c = ']' then some ([v], rest2)
        else none
      | [] => none

/-- Members of a JSON object after the opening brace (at least one pair). -/
def parseObjItems (pv : List Char → Option (Json × List Char)) :
    Nat → List Char → Option (List (String × Json) × List Char)
  | 0, _ => none
  | f + 1, cs =>
    match skipWs cs with
    | c :: rest =>
      if c = dqChar then
        match parseStringBody (rest.length + 1) rest [] with
        | none => none
        | some (k, r1) =>
          match skipWs r1 with
          | c2 :: r2 =>
            if c2 = ':' then
              match pv (skipWs r2) with
              | none => none
              | some (v, r3) =>
                match skipWs r3 with
                | c3 :: r4 =>
                  if c3 = ',' then
                    match parseObjItems pv f r4 with
                    | some (ms, r) => some ((k, v) :: ms, r)
                    | none => none
                  else if c3 = rbraceChar then some ([(k, v)], r4)
                  else none
                | [] => none
            else none
          | [] => none
      else none
    | [] => none

/-- One JSON value (input must start with a non-whitespace character). -/
def parseVal : Nat → List Char → Option (Json × List Char)
  | 0, _ => none
  | f + 1, cs =>
    match cs with
    | [] => none
    | c :: rest =>
      if c = dqChar then
        match parseStringBody (rest.length + 1) rest [] with
        | some (s, r) => some (Json.str s, r)
        | none => none
      else if c = lbraceChar then
        match skipWs rest with
        | c2 :: r2 =>
          if c2 = rbraceChar then some (Json.obj [], r2)
          else
            match parseObjItems (parseVal f) (f + 1) rest with
            | some (ms, r) => some (Json.obj ms, r)
            | none => none
        | [] => none
      else if c = '[' then
        match skipWs rest with
        | c2 :: r2 =>
          if c2 = ']' then some (Json.arr [], r2)
          else
            match parseArrItems (parseVal f) (f + 1) rest with
            | some (vs, r) => some (Json.arr vs, r)
            | none => none
        | [] => none
      else
        match cs with
        | 't' :: 'r' :: 'u' :: 'e' :: r => some (Json.bool true, r)
        | 'f' :: 'a' :: 'l' :: 's' :: 'e' :: r => some (Json.bool false, r)
        | 'n' :: 'u' :: 'l' :: 'l' :: r => some (Json.null, r)
        | 'N' :: 'a' :: 'N' :: r => some (Json.num ("NaN"), r)
        | 'I' :: 'n' :: 'f' :: 'i' :: 'n' :: 'i' :: 't' :: 'y' :: r =>
          some (Json.num ("Infinity"), r)
        | _ =>
          match rest with
          | 'I' :: 'n' :: 'f' :: 'i' :: 'n' :: 'i' :: 't' :: 'y' :: r =>
            if c = Char.ofNat 45 then some (Json.num ("-Infinity"), r)
            else
              match parseNumber cs with
              | some (lit, r2) => some (Json.num lit, r2)
              | none => none
          | _ =>
            match parseNumber cs with
            | some (lit, r2) => some (Json.num lit, r2)
            | none => none

/-- Model of `json.loads`: parse a complete document, allowing surrounding
whitespace, rejecting trailing garbage.  `none` models `JSONDecodeError`. -/
def parsePyJson (s : String) : Option Json :=
  let cs := skipWs s.data
  match parseVal (cs.length + 2) cs with
  | some (v, rest) => if (skipWs rest).isEmpty then some v else none
  | none => none

/-- Whitespace stripped by Python `str.strip()` (ASCII subset; the unicode
whitespace classes never occur in the inputs the claims quantify over). -/
def isPyStripWs (c : Char) : Bool :=
  c = ' ' || c = Char.ofNat 9 || c = Char.ofNat 10 || c = Char.ofNat 11 ||
  c = Char.ofNat 12 || c = Char.ofNat 13

/-- Python `str.strip()`. -/
def pyStrip (s : String) : String :=
  String.mk (((s.data.dropWhile isPyStripWs).reverse.dropWhile isPyStripWs).reverse)

/-- Does `pat` occur as a leading block of `cs`? -/
def leadsWith : List Char → List Char → Bool
  | [], _ => true
  | _ :: _, [] => false
  | p :: ps, c :: cs => if p = c then leadsWith ps cs else false

/-- Substring containment on char lists. -/
def hasInfixL : List Char → List Char → Bool
  | pat, [] => pat.isEmpty
  | pat, c :: t => leadsWith pat (c :: t) || hasInfixL pat t

/-- Python `pat in s` for strings: substring containment. -/
def strContains (s pat : String) : Bool := hasInfixL pat.data s.data

/-- Class `\s` of the Python `re` module (ASCII subset). -/
def isReSpace (c : Char) : Bool :=
  c = ' ' || c = Char.ofNat 9 || c = Char.ofNat 10 || c = Char.ofNat 11 ||
  c = Char.ofNat 12 || c = Char.ofNat 13

/-- Match of the whole char list against `Reconnecting\.\.\.\s+\d+/\d+`. -/
def reconCore (cs : List Char) : Bool :=
  match cs.drop 15 with
  | r1 =>
    if leadsWith (("Reconnecting...").data) cs then
      let sp := r1.takeWhile isReSpace
      let r2 := r1.dropWhile isReSpace
      if sp.isEmpty then false
      else
        let d1 := r2.takeWhile Char.isDigit
        let r3 := r2.dropWhile Char.isDigit
        if d1.isEmpty then false
        else
          match r3 with
          | c :: r4 =>
            if c = Char.ofNat 47 then
              let d2 := r4.takeWhile Char.isDigit
              let r5 := r4.dropWhile Char.isDigit
              !d2.isEmpty && r5.isEmpty
            else false
          | [] => false
    else false

/-- Model of `bool(re.match(pattern, m))` for the reconnect pattern
(line 244): anchored at the start; `$` also matches just before one
trailing newline. -/
def isReconnecting (m : String) : Bool :=
  reconCore m.data ||
    (match m.data.getLast? with
     | some c => if c = Char.ofNat 10 then reconCore m.data.dropLast else false
     | none => false)

/-- Two lowercase hex digits of a byte, for `repr` control-char escapes. -/
def hexDigit (n : Nat) : Char :=
  if n < 10 then Char.ofNat (48 + n) else Char.ofNat (87 + n)

/-- One character as rendered inside a Python `repr` with quote `q`. -/
def reprEscChar (q : Char) (c : Char) : List Char :=
  if c = bsChar then [bsChar, bsChar]
  else if c = q then [bsChar, q]
  else if c = Char.ofNat 10 then [bsChar, 'n']
  else if c = Char.ofNat 13 then [bsChar, 'r']
  else if c = Char.ofNat 9 then [bsChar, 't']
  else if c.toNat < 32 || c.toNat = 127 then
    [bsChar, 'x', hexDigit (c.toNat / 16), hexDigit (c.toNat % 16)]
  else [c]

/-- Python `repr` of a string, as interpolated by the `f"... {line!r}"`
diagnostic: single-quoted, switching to double quotes when the string
contains a single quote but no double quote. -/
def pyRepr (s : String) : String :=
  let q := if s.data.contains sqChar && !(s.data.contains dqChar) then dqChar else sqChar
  String.mk (q :: (s.data.flatMap (reprEscChar q) ++ [q]))

/-- Python `j == t` where `t` is a `str`: true only for an equal string. -/
def jsonEqStr (j : Json) (t : String) : Bool :=
  match j with
  | Json.str s2 => s2 == t
  | _ => false

/-- Accumulator of the `codex` aggregation loop (server.py lines 222-227),
plus `broken`, which models that the `except Exception` handler executed
`break`: once set, the remaining lines of the sequence are not consumed. -/
structure AggState where
  all_messages : List Json
  agent_messages : String
  success : Bool
  err_message : String
  thread_id : Option Json
  broken : Bool

/-- Initial accumulator (server.py lines 222-226). -/
def initAgg : AggState :=
  { all_messages := [], agent_messages := "", success := true,
    err_message := "", thread_id := none, broken := false }

/-- Diagnostic for a line that is not valid JSON (line 253). -/
def jsonDecodeNote (line : String) : String := "\n\n[json decode error] " ++ line

/-- Diagnostic for a protocol failure event (lines 240 and 248). -/
def codexErrNote (m : String) : String := "\n\n[codex error] " ++ m

/-- Diagnostic of the `except Exception` handler (line 257):
`"\n\n[unexpected error] " + f"Unexpected error: {error}. Line: {line!r}"`.
The text of the Python exception itself (`{error}`) is abstracted by
`desc`; the claims depend only on the presence of the note and on the
`repr` of the offending line, which closes the format string. -/
def unexpectedNote (desc line : String) : String :=
  "\n\n[unexpected error] " ++ ("Unexpected error: " ++ (desc ++ (". Line: " ++ pyRepr line)))

/-- Post-loop diagnostic when no `thread_id` was observed (line 263). -/
def noSessionNote : String := "Failed to get `SESSION_ID` from the codex session. \n\n"

/-- Post-loop diagnostic when no assistant text was produced (line 267). -/
def noAgentNote : String :=
  "Failed to get `agent_messages` from the codex session. \n\n You can try to set `return_all_messages` to `True` to get the full reasoning information. "

/-- Effect of the `except Exception` handler (lines 256-259): append the
diagnostic, set `success = False`, and break out of the loop. -/
def fatalState (s : AggState) (line desc : String) : AggState :=
  { s with err_message := s.err_message ++ unexpectedNote desc line,
           success := false, broken := true }

/-- Python `needle in v` for a string needle and an arbitrary value `v`
(the `"fail" in line_dict.get("type", "")` tests of lines 238 and 241):
substring test on a string, element membership on a list, key membership
on a dict; `none` models the `TypeError` raised for every other operand
(`None`, booleans, numbers). -/
def pyInStr (needle : String) (v : Json) : Option Bool :=
  match v with
  | Json.str s => some (strContains s needle)
  | Json.arr xs => some (xs.any (fun x => jsonEqStr x needle))
  | Json.obj fs => some (fs.any (fun kv => kv.1 == needle))
  | _ => none

/-- Lines 238-240: the `"fail" in type` branch, given the result of the
membership test.  `success` is cleared only when no assistant text has
accumulated (line 239); evaluating the right-hand side of the
`err_message +=` raises `AttributeError` when `error` is present but not a
dict, and `TypeError` when `error.message` is present but not a string —
in both cases after `success` was already updated, since line 239 precedes
line 240. -/
def stepFailBranch (s : AggState) (line : String) (o : List (String × Json))
    (hasFail : Bool) : AggState :=
  if hasFail then
    let s3 := { s with success := if s.agent_messages = ("") then false else s.success }
    match dictGetD o ("error") (Json.obj []) with
    | Json.obj ef =>
      match dictGetD ef ("message") (Json.str ("")) with
      | Json.str m => { s3 with err_message := s3.err_message ++ codexErrNote m }
      | _ => fatalState s3 line ("unsupported operand type for string concatenation")
    | _ => fatalState s3 line ("object has no attribute get")
  else s

/-- Lines 241-248: the `"error" in type` branch, given the result of the
membership test.  `re.match` raises `TypeError` when `message` is present
but not a string; a message matching the reconnect pattern is skipped as
non-fatal noise. -/
def stepErrorBranch (s : AggState) (line : String) (o : List (String × Json))
    (hasError : Bool) : AggState :=
  if hasError then
    match dictGetD o ("message") (Json.str ("")) with
    | Json.str m =>
      if isReconnecting m then s
      else
        { s with success := if s.agent_messages = ("") then false else s.success,
                 err_message := s.err_message ++ codexErrNote m }
    | _ => fatalState s line ("expected string or bytes-like object")
  else s

/-- Lines 238-248 as one stage, for the value `tyv` of the `type` field:
the `in` test of line 238 (a `TypeError` for a non-container operand is
fatal), the failure branch, the `in` test of line 241 — it operates on the
same value, so its impossible failure case is mapped to the same fatal
state — and the error branch.  An exception inside the failure branch
(`broken`) skips the rest, mirroring the Python control flow. -/
def failErrorStage (s2 : AggState) (line : String) (o : List (String × Json))
    (tyv : Json) : AggState :=
  match pyInStr ("fail") tyv with
  | none => fatalState s2 line ("argument of type is not iterable")
  | some hasFail =>
    let s3 := stepFailBranch s2 line o hasFail
    if s3.broken then s3
    else
      match pyInStr ("error") tyv with
      | none => fatalState s3 line ("argument of type is not iterable")
      | some hasError => stepErrorBranch s3 line o hasError

/-- Lines 232-248: processing of one parsed JSON object.  The stages run in
source order: assistant-text accumulation (232-235), `thread_id` recording
(236-237), failure branch (238-240), error branch (241-248).  An exception
raised at any point aborts the remaining stages (`fatalState`). -/
def stepObj (s : AggState) (line : String) (o : List (String × Json)) : AggState :=
  match dictGetD o ("item") (Json.obj []) with
  | Json.obj itemF =>
    let s1opt : Option AggState :=
      if jsonEqStr (dictGetD itemF ("type") (Json.str (""))) ("agent_message") then
        match dictGetD itemF ("text") (Json.str ("")) with
        | Json.str t => some { s with agent_messages := s.agent_messages ++ t }
        | _ => none
      else some s
    match s1opt with
    | none => fatalState s line ("can only concatenate str to str")
    | some s1 =>
      let s2 :=
        match dictGet o ("thread_id") with
        | some Json.null => s1
        | none => s1
        | some v => { s1 with thread_id := some v }
      failErrorStage s2 line o (dictGetD o ("type") (Json.str ("")))
  | _ => fatalState s line ("object has no attribute get")

/-- Lines 230-248 for a successfully parsed line: the parsed value is first
appended to `all_messages` (line 231); a value that is not a JSON object
then raises `AttributeError` at `line_dict.get` (line 232). -/
def stepEvent (s : AggState) (line : String) (v : Json) : AggState :=
  let sA := { s with all_messages := s.all_messages ++ [v] }
  match v with
  | Json.obj o => stepObj sA line o
  | _ => fatalState sA line ("object has no attribute get")

/-- One iteration of `for line in run_shell_command(cmd)` (lines 228-259).
After a `break` (`broken`) no further line is consumed. -/
def step (s : AggState) (line : String) : AggState :=
  if s.broken then s
  else
    match parsePyJson (pyStrip line) with
    | none => { s with err_message := s.err_message ++ jsonDecodeNote line }
    | some v => stepEvent s line v

/-- The result dictionary of the `codex` tool (lines 269-283): on success
the keys `success`, `SESSION_ID`, `agent_messages`; on failure `success`
and `error`; `all_messages` added when requested. -/
structure SessionResult where
  success : Bool
  SESSION_ID : Option Json
  agent_messages : Option String
  error : Option String
  all_messages : Option (List Json)

/-- Post-loop verdict and result construction (lines 261-283). -/
def finalize (s : AggState) (return_all_messages : Bool) : SessionResult :=
  let p1 : Bool × String :=
    if s.thread_id.isNone then (false, noSessionNote ++ s.err_message)
    else (s.success, s.err_message)
  let p2 : Bool × String :=
    if s.agent_messages = ("") then (false, noAgentNote ++ p1.2)
    else (p1.1, p1.2)
  if p2.1 then
    { success := true, SESSION_ID := s.thread_id,
      agent_messages := some s.agent_messages, error := none,
      all_messages := if return_all_messages then some s.all_messages else none }
  else
    { success := false, SESSION_ID := none, agent_messages := none,
      error := some p2.2,
      all_messages := if return_all_messages then some s.all_messages else none }

/-- The whole aggregation of the `codex` tool as a function of the line
sequence produced by the orchestrator (lines 222-283). -/
def codexAggregate (lines : List String) (return_all_messages : Bool) : SessionResult :=
  finalize (lines.foldl step initAgg) return_all_messages

/-- An event whose nested item is an assistant message
(`item.type == "agent_message"`, lines 232-234). -/
def isAgentMessageEvent (o : List (String × Json)) : Bool :=
  match dictGetD o ("item") (Json.obj []) with
  | Json.obj itemF => jsonEqStr (dictGetD itemF ("type") (Json.str (""))) ("agent_message")
  | _ => false

/-- A line that parses to an agent-message event. -/
def isAgentMessageLine (l : String) : Bool :=
  match parsePyJson (pyStrip l) with
  | some (Json.obj o) => isAgentMessageEvent o
  | _ => false

/-- Failure-signaling event in the sense of claim C1 / spec P3: `type`
contains `"fail"`, or contains `"error"` and the `message` field is not a
string matching the reconnect pattern. -/
def isFailureSignal (o : List (String × Json)) : Bool :=
  match dictGetD o ("type") (Json.str ("")) with
  | Json.str ty =>
    strContains ty ("fail") ||
      (strContains ty ("error") &&
        !(match dictGetD o ("message") (Json.str ("")) with
          | Json.str m => isReconnecting m
          | _ => false))
  | _ => false

/-- The parsed object can be folded in without raising: `item` is absent or
a dict; an agent message carries an absent-or-string `text`; the `type`
value supports the `in` operator (it is a string, list or dict — for
`None`, booleans and numbers Python raises `TypeError`); when the `"fail"`
test succeeds there is an absent-or-dict `error` whose `message` is absent
or a string; when the `"error"` test succeeds there is an absent-or-string
`message`. -/
def eventWellFormed (o : List (String × Json)) : Bool :=
  (match dictGetD o ("item") (Json.obj []) with
   | Json.obj itemF =>
     if jsonEqStr (dictGetD itemF ("type") (Json.str (""))) ("agent_message") then
       match dictGetD itemF ("text") (Json.str ("")) with
       | Json.str _ => true
       | _ => false
     else true
   | _ => false) &&
  (match pyInStr ("fail") (dictGetD o ("type") (Json.str (""))),
      pyInStr ("error") (dictGetD o ("type") (Json.str (""))) with
   | some hasFail, some hasError =>
     (!hasFail ||
       (match dictGetD o ("error") (Json.obj []) with
        | Json.obj ef =>
          match dictGetD ef ("message") (Json.str ("")) with
          | Json.str _ => true
          | _ => false
        | _ => false)) &&
     (!hasError ||
       (match dictGetD o ("message") (Json.str ("")) with
        | Json.str _ => true
        | _ => false))
   | _, _ => false)

/-- A line that parses to an object carrying a non-null `thread_id`
(lines 236-237). -/
def carriesThreadId (l : String) : Bool :=
  match parsePyJson (pyStrip l) with
  | some (Json.obj o) =>
    match dictGet o ("thread_id") with
    | some Json.null => false
    | none => false
    | some _ => true
  | _ => false

/-- A parsed value whose processing raises a non-decode exception
(state-independently): any non-object, or an object violating
`eventWellFormed`. -/
def fatalEvent (v : Json) : Bool :=
  match v with
  | Json.obj o => !eventWellFormed o
  | _ => true

/-- The event shape of claim C5 as written: `type` contains `"error"` and
`message` is exactly `"Reconnecting... 3/10"`. -/
def isErrorReconnectLine (l : String) : Bool :=
  match parsePyJson (pyStrip l) with
  | some (Json.obj o) =>
    (match dictGetD o ("type") (Json.str ("")) with
     | Json.str ty => strContains ty ("error")
     | _ => false) &&
    (match dictGetD o ("message") (Json.str ("")) with
     | Json.str m => m == "Reconnecting... 3/10"
     | _ => false)
  | _ => false

/-- Modelled from the claim wording of C3/P1: the `thread_id` of the last
event in the sequence that carries one (non-null), if any. -/
def lastThreadIdSpec (lines : List String) : Option Json :=
  lines.foldl
    (fun acc l =>
      match parsePyJson (pyStrip l) with
      | some (Json.obj o) =>
        match dictGet o ("thread_id") with
        | some Json.null => acc
        | none => acc
        | some v => some v
      | _ => acc)
    none

/-- Modelled from the claim wording of C4/P2: the `item.text` contributed by
one line — the text of an agent-message event (empty when `item.text` is
absent), nothing for any other line. -/
def lineAgentText (l : String) : String :=
  match parsePyJson (pyStrip l) with
  | some (Json.obj o) =>
    match dictGetD o ("item") (Json.obj []) with
    | Json.obj itemF =>
      if jsonEqStr (dictGetD itemF ("type") (Json.str (""))) ("agent_message") then
        match dictGetD itemF ("text") (Json.str ("")) with
        | Json.str t => t
        | _ => ""
      else ""
    | _ => ""
  | _ => ""

/-- Modelled from the claim wording of C4/P2: the concatenation, in arrival
order, of every agent-message `item.text`. -/
def agentTextSpec (lines : List String) : String :=
  lines.foldl (fun acc l => acc ++ lineAgentText l) ""

/-- Predicate `is_turn_completed` of `run_shell_command` (lines 57-63): a best-effort
parse; any exception (decode error, `.get` on a non-dict) yields `False`. -/
def is_turn_completed (line : String) : Bool :=
  match parsePyJson line with
  | some (Json.obj o) =>
    match dictGet o ("type") with
    | some (Json.str t) => t == "turn.completed"
    | _ => false
  | _ => false

/-- The sequence of queue puts performed by the reader thread (lines 65-76):
each child line is stripped and put; on a terminal event the thread breaks
(terminating the child, so no further lines are read); the `None` sentinel
is always put last. -/
def producerPuts : List String → List (Option String)
  | [] => [none]
  | l :: rest =>
    let st := pyStrip l
    if is_turn_completed st then [some st, none]
    else some st :: producerPuts rest

/-- Phases of the consuming generator (lines 82-105): the polling main loop,
the post-loop drain of the queue, and completion. -/
inductive Phase where
  | main
  | drain
  | done

/-- Interleaving state of `run_shell_command`: pending producer puts, the
FIFO channel contents, the lines yielded so far, and the consumer phase. -/
structure OrchState where
  toPut : List (Option String)
  chan : List (Option String)
  yielded : List String
  phase : Phase

/-- One interleaving step of `run_shell_command`:
  * `put` — the reader thread appends its next item to the queue;
  * `getLine` — `output_queue.get` returns a line, which is yielded;
  * `getSentinel` — `get` returns `None`: break, then `process.wait` and
    `thread.join`, entering the final drain loop;
  * `timeoutExit` — `get` timed out and the liveness check passed
    (`process.poll() is not None and not thread.is_alive()`); a dead thread
    has already performed all its puts, hence `toPut = []`;
  * `drainLine` / `drainSentinel` — the final `get_nowait` loop yields
    remaining lines, skipping `None`;
  * `finish` — the queue is observed empty; the generator returns. -/
inductive OrchStep : OrchState → OrchState → Prop where
  | put (x : Option String) (r q : List (Option String)) (y : List String) :
      OrchStep ⟨x :: r, q, y, Phase.main⟩ ⟨r, q ++ [x], y, Phase.main⟩
  | getLine (tp : List (Option String)) (l : String) (r : List (Option String))
      (y : List String) :
      OrchStep ⟨tp, some l :: r, y, Phase.main⟩ ⟨tp, r, y ++ [l], Phase.main⟩
  | getSentinel (tp r : List (Option String)) (y : List String) :
      OrchStep ⟨tp, none :: r, y, Phase.main⟩ ⟨tp, r, y, Phase.drain⟩
  | timeoutExit (q : List (Option String)) (y : List String) :
      OrchStep ⟨[], q, y, Phase.main⟩ ⟨[], q, y, Phase.drain⟩
  | drainLine (tp : List (Option String)) (l : String) (r : List (Option String))
      (y : List String) :
      OrchStep ⟨tp, some l :: r, y, Phase.drain⟩ ⟨tp, r, y ++ [l], Phase.drain⟩
  | drainSentinel (tp r : List (Option String)) (y : List String) :
      OrchStep ⟨tp, none :: r, y, Phase.drain⟩ ⟨tp, r, y, Phase.drain⟩
  | finish (tp : List (Option String)) (y : List String) :
      OrchStep ⟨tp, [], y, Phase.drain⟩ ⟨tp, [], y, Phase.done⟩

/-- Initial interleaving state for a child that writes `childLines`. -/
def initOrch (childLines : List String) : OrchState :=
  ⟨producerPuts childLines, [], [], Phase.main⟩

/-- States reachable by the producer/consumer interleaving. -/
inductive OrchReach (childLines : List String) : OrchState → Prop where
  | init : OrchReach childLines (initOrch childLines)
  | next {s t : OrchState} : OrchReach childLines s → OrchStep s t →
      OrchReach childLines t

/-- Python `str.replace(old, new)` specialised to a single-character `old`
(every occurrence is one character, so occurrences never overlap). -/
def pyReplaceChar : List Char → Char → List Char → List Char
  | [], _, _ => []
  | c :: t, old, new => (if c = old then new else [c]) ++ pyReplaceChar t old new

/-- Function `windows_escape` (server.py lines 107-128): the chain of `str.replace`
calls in source order — backslash first, then double quote, LF, CR, tab,
backspace, form feed, single quote. -/
def windows_escape (prompt : String) : String :=
  let r1 := pyReplaceChar prompt.data bsChar [bsChar, bsChar]
  let r2 := pyReplaceChar r1 dqChar [bsChar, dqChar]
  let r3 := pyReplaceChar r2 (Char.ofNat 10) [bsChar, 'n']
  let r4 := pyReplaceChar r3 (Char.ofNat 13) [bsChar, 'r']
  let r5 := pyReplaceChar r4 (Char.ofNat 9) [bsChar, 't']
  let r6 := pyReplaceChar r5 (Char.ofNat 8) [bsChar, 'b']
  let r7 := pyReplaceChar r6 (Char.ofNat 12) [bsChar, 'f']
  let r8 := pyReplaceChar r7 sqChar [bsChar, sqChar]
  String.mk r8

/-- Modelled from the claim wording of C9, first stage: double every
backslash. -/
def doubleBackslashes (cs : List Char) : List Char :=
  cs.flatMap (fun c => if c = bsChar then [bsChar, bsChar] else [c])

/-- Modelled from the claim wording of C9, second stage: replace each
double-quote, newline, carriage return, tab, backspace, form-feed and
single-quote character by a backslash followed by its escape code, leaving
every other character (including the backslashes of stage one) unchanged. -/
def escSpecChar (c : Char) : List Char :=
  if c = dqChar then [bsChar, dqChar]
  else if c = Char.ofNat 10 then [bsChar, 'n']
  else if c = Char.ofNat 13 then [bsChar, 'r']
  else if c = Char.ofNat 9 then [bsChar, 't']
  else if c = Char.ofNat 8 then [bsChar, 'b']
  else if c = Char.ofNat 12 then [bsChar, 'f']
  else if c = sqChar then [bsChar, sqChar]
  else [c]

/-- Modelled from the claim wording of C9: the whole transform as described
by the claim — doubling backslashes, then the per-character escape map. -/
def windowsEscapeSpec (prompt : String) : String :=
  String.mk ((doubleBackslashes prompt.data).flatMap escSpecChar)

def coreEq (s1 s2 : AggState) : Prop :=
  s1.all_messages = s2.all_messages ∧ s1.agent_messages = s2.agent_messages ∧
  s1.success = s2.success ∧ s1.thread_id = s2.thread_id ∧ s1.broken = s2.broken

def c1failLine : String := "\x7b\"type\": \"turn.failed\"\x7d"

def c1okLine : String :=
  "\x7b\"thread_id\": \"s\", \"item\": \x7b\"type\": \"agent_message\", \"text\": \"hi\"\x7d\x7d"

def c1state : AggState :=
  { all_messages := [], agent_messages := "hi", success := true,
    err_message := "", thread_id := some (Json.str ("s")), broken := false }

def c2emptyTidLine : String :=
  "\x7b\"thread_id\": \"\", \"item\": \x7b\"type\": \"agent_message\", \"text\": \"hi\"\x7d\x7d"

def c2okLine : String :=
  "\x7b\"thread_id\": \"sid\", \"item\": \x7b\"type\": \"agent_message\", \"text\": \"ok\"\x7d\x7d"

def c3aLine : String := "\x7b\"thread_id\": \"s1\"\x7d"

def c3bLine : String :=
  "\x7b\"thread_id\": \"s2\", \"item\": \x7b\"type\": \"agent_message\", \"text\": \"hi\"\x7d\x7d"

def c5tidLine : String := "\x7b\"thread_id\": \"s\"\x7d"

def c5failErrLine : String :=
  "\x7b\"type\": \"failerror\", \"message\": \"Reconnecting... 3/10\"\x7d"

def c5agentLine : String :=
  "\x7b\"item\": \x7b\"type\": \"agent_message\", \"text\": \"hi\"\x7d\x7d"

def c5recLine : String :=
  "\x7b\"type\": \"stream_error\", \"message\": \"Reconnecting... 3/10\"\x7d"

def c7badLine : String := "\x7b\"type\": null\x7d"

def c10arrLine : String := "[1, 2]"

/-- Invariant of the producer/consumer interleaving: the yielded lines, the
lines still in the channel and the lines still to be put always recompose
the stripped child output; the pending puts are a suffix of the full put
sequence; a consumer past the main loop implies the producer has finished;
the sentinel is in the channel only after all puts; a finished consumer has
drained the channel. -/
def orchInv (strips : List String) (st : OrchState) : Prop :=
  st.yielded ++ st.chan.filterMap id ++ st.toPut.filterMap id = strips ∧
    (st.toPut = [] ∨ ∃ k, st.toPut = ((strips.drop k).map some) ++ [none]) ∧
    (st.phase ≠ Phase.main → st.toPut = []) ∧
    (st.toPut ≠ [] → none ∉ st.chan) ∧
    (st.phase = Phase.done → st.chan = [])

theorem strExt {s t : String} (h : s.data = t.data) : s = t := by
  cases s
  cases t
  simp only at h
  rw [h]

theorem strNeEmptyIffData (s : String) : s ≠ "" ↔ s.data ≠ [] := by
  constructor
  · intro h hc
    exact h (strExt (by rw [hc]))
  · intro h hc
    rw [hc] at h
    exact h rfl

theorem strNeAppendLeft (a b : String) (h : a ≠ "") : a ++ b ≠ "" := by
  rw [strNeEmptyIffData] at h ⊢
  rw [String.data_append]
  intro hc
  exact h (List.append_eq_nil.mp hc).1

theorem strNeAppendRight (a b : String) (h : b ≠ "") : a ++ b ≠ "" := by
  rw [strNeEmptyIffData] at h ⊢
  rw [String.data_append]
  intro hc
  exact h (List.append_eq_nil.mp hc).2

theorem leadsWith_self (l : List Char) : leadsWith l l = true := by
  induction l with
  | nil => rfl
  | cons c t ih =>
    unfold leadsWith
    rw [if_pos rfl]
    exact ih

theorem hasInfixL_append_self (a pat : List Char) : hasInfixL pat (a ++ pat) = true := by
  induction a with
  | nil =>
    cases pat with
    | nil => rfl
    | cons c t => simp [hasInfixL, leadsWith_self]
  | cons c t ih => simp [hasInfixL, ih]

theorem strContains_append_suffix (a b : String) : strContains (a ++ b) b = true := by
  unfold strContains
  rw [String.data_append]
  exact hasInfixL_append_self a.data b.data

theorem step_of_broken (s : AggState) (l : String) (h : s.broken = true) :
    step s l = s := by
  simp [step, h]

theorem foldl_step_of_broken (s : AggState) (ls : List String) (h : s.broken = true) :
    List.foldl step s ls = s := by
  induction ls with
  | nil => rfl
  | cons l t ih => rw [List.foldl_cons, step_of_broken s l h, ih]

theorem fatalState_success (s : AggState) (l d : String) :
    (fatalState s l d).success = false := rfl

theorem fatalState_broken (s : AggState) (l d : String) :
    (fatalState s l d).broken = true := rfl

theorem sfb_success_false (s : AggState) (l : String) (o : List (String × Json))
    (hf : Bool) (h : s.success = false) :
    (stepFailBranch s l o hf).success = false := by
  unfold stepFailBranch fatalState
  repeat' split
  all_goals simp_all

theorem seb_success_false (s : AggState) (l : String) (o : List (String × Json))
    (he : Bool) (h : s.success = false) :
    (stepErrorBranch s l o he).success = false := by
  unfold stepErrorBranch fatalState
  repeat' split
  all_goals simp_all

theorem fes_success_false (s2 : AggState) (l : String) (o : List (String × Json))
    (tyv : Json) (h : s2.success = false) :
    (failErrorStage s2 l o tyv).success = false := by
  unfold failErrorStage
  repeat' (first | split | dsimp only)
  all_goals
    first
    | rfl
    | exact sfb_success_false _ _ _ _ h
    | exact seb_success_false _ _ _ _ (sfb_success_false _ _ _ _ h)

theorem stepObj_success_false (s : AggState) (l : String) (o : List (String × Json))
    (h : s.success = false) :
    (stepObj s l o).success = false := by
  unfold stepObj fatalState
  repeat' (first | split | dsimp only)
  all_goals
    first
    | (simp_all; done)
    | exact fes_success_false _ _ _ _ (by simp_all)

theorem stepEvent_success_false (s : AggState) (l : String) (v : Json)
    (h : s.success = false) :
    (stepEvent s l v).success = false := by
  unfold stepEvent fatalState
  split
  · exact stepObj_success_false _ _ _ (by simp_all)
  all_goals rfl

theorem step_success_false (s : AggState) (l : String) (h : s.success = false) :
    (step s l).success = false := by
  unfold step
  split
  · exact h
  · split
    · exact h
    · exact stepEvent_success_false _ _ _ h

theorem foldl_step_success_false (s : AggState) (ls : List String)
    (h : s.success = false) :
    (List.foldl step s ls).success = false := by
  induction ls generalizing s with
  | nil => exact h
  | cons l t ih => exact ih _ (step_success_false s l h)

theorem finalize_success_false (s : AggState) (ra : Bool) (h : s.success = false) :
    (finalize s ra).success = false := by
  unfold finalize
  repeat' split
  all_goals simp_all

theorem sfb_false (s : AggState) (l : String) (o : List (String × Json)) :
    stepFailBranch s l o false = s := by
  simp [stepFailBranch]

theorem seb_false (s : AggState) (l : String) (o : List (String × Json)) :
    stepErrorBranch s l o false = s := by
  simp [stepErrorBranch]

theorem sfb_agent_eq (s : AggState) (l : String) (o : List (String × Json))
    (hf : Bool) : (stepFailBranch s l o hf).agent_messages = s.agent_messages := by
  unfold stepFailBranch fatalState
  repeat' (first | split | dsimp only)

theorem seb_agent_eq (s : AggState) (l : String) (o : List (String × Json))
    (he : Bool) : (stepErrorBranch s l o he).agent_messages = s.agent_messages := by
  unfold stepErrorBranch fatalState
  repeat' (first | split | dsimp only)

theorem sfb_thread_eq (s : AggState) (l : String) (o : List (String × Json))
    (hf : Bool) : (stepFailBranch s l o hf).thread_id = s.thread_id := by
  unfold stepFailBranch fatalState
  repeat' (first | split | dsimp only)

theorem seb_thread_eq (s : AggState) (l : String) (o : List (String × Json))
    (he : Bool) : (stepErrorBranch s l o he).thread_id = s.thread_id := by
  unfold stepErrorBranch fatalState
  repeat' (first | split | dsimp only)

theorem sfb_all_eq (s : AggState) (l : String) (o : List (String × Json))
    (hf : Bool) : (stepFailBranch s l o hf).all_messages = s.all_messages := by
  unfold stepFailBranch fatalState
  repeat' (first | split | dsimp only)

theorem seb_all_eq (s : AggState) (l : String) (o : List (String × Json))
    (he : Bool) : (stepErrorBranch s l o he).all_messages = s.all_messages := by
  unfold stepErrorBranch fatalState
  repeat' (first | split | dsimp only)

theorem fes_agent_eq (s : AggState) (l : String) (o : List (String × Json))
    (tyv : Json) : (failErrorStage s l o tyv).agent_messages = s.agent_messages := by
  unfold failErrorStage
  repeat' (first | split | dsimp only)
  all_goals simp_all [fatalState, sfb_agent_eq, seb_agent_eq]

theorem fes_thread_eq (s : AggState) (l : String) (o : List (String × Json))
    (tyv : Json) : (failErrorStage s l o tyv).thread_id = s.thread_id := by
  unfold failErrorStage
  repeat' (first | split | dsimp only)
  all_goals simp_all [fatalState, sfb_thread_eq, seb_thread_eq]

theorem unexpectedNote_ne (d l : String) : unexpectedNote d l ≠ "" := by
  unfold unexpectedNote
  exact strNeAppendLeft _ _ (by decide)

theorem codexErrNote_ne (m : String) : codexErrNote m ≠ "" := by
  unfold codexErrNote
  exact strNeAppendLeft _ _ (by decide)

theorem jsonDecodeNote_ne (l : String) : jsonDecodeNote l ≠ "" := by
  unfold jsonDecodeNote
  exact strNeAppendLeft _ _ (by decide)

theorem fatalState_err_ne (s : AggState) (l d : String) :
    (fatalState s l d).err_message ≠ "" :=
  strNeAppendRight _ _ (unexpectedNote_ne d l)

theorem sfb_errP (s : AggState) (l : String) (o : List (String × Json)) (hf : Bool)
    (h : s.success = false → s.err_message ≠ "") :
    (stepFailBranch s l o hf).success = false →
      (stepFailBranch s l o hf).err_message ≠ "" := by
  unfold stepFailBranch
  repeat' (first | split | dsimp only)
  all_goals intro hs
  all_goals
    first
    | exact strNeAppendRight _ _ (codexErrNote_ne _)
    | exact fatalState_err_ne _ _ _
    | exact h hs

theorem seb_errP (s : AggState) (l : String) (o : List (String × Json)) (he : Bool)
    (h : s.success = false → s.err_message ≠ "") :
    (stepErrorBranch s l o he).success = false →
      (stepErrorBranch s l o he).err_message ≠ "" := by
  unfold stepErrorBranch
  repeat' (first | split | dsimp only)
  all_goals intro hs
  all_goals
    first
    | exact strNeAppendRight _ _ (codexErrNote_ne _)
    | exact fatalState_err_ne _ _ _
    | exact h hs

theorem fes_errP (s2 : AggState) (l : String) (o : List (String × Json)) (tyv : Json)
    (h : s2.success = false → s2.err_message ≠ "") :
    (failErrorStage s2 l o tyv).success = false →
      (failErrorStage s2 l o tyv).err_message ≠ "" := by
  unfold failErrorStage
  repeat' (first | split | dsimp only)
  all_goals intro hs
  all_goals
    first
    | exact fatalState_err_ne _ _ _
    | exact h hs
    | exact sfb_errP _ _ _ _ h hs
    | exact seb_errP _ _ _ _ (sfb_errP _ _ _ _ h) hs

theorem stepObj_errP (s : AggState) (l : String) (o : List (String × Json))
    (h : s.success = false → s.err_message ≠ "") :
    (stepObj s l o).success = false → (stepObj s l o).err_message ≠ "" := by
  unfold stepObj
  repeat' (first | split | dsimp only)
  all_goals intro hs
  all_goals
    first
    | exact fatalState_err_ne _ _ _
    | exact h hs
    | exact fes_errP _ _ _ _ (fun _ => h (by simp_all)) hs

theorem stepEvent_errP (s : AggState) (l : String) (v : Json)
    (h : s.success = false → s.err_message ≠ "") :
    (stepEvent s l v).success = false → (stepEvent s l v).err_message ≠ "" := by
  unfold stepEvent
  repeat' (first | split | dsimp only)
  · exact stepObj_errP _ _ _ (fun hx => h (by simp_all))
  all_goals intro _
  all_goals exact fatalState_err_ne _ _ _

theorem step_errP (s : AggState) (l : String)
    (h : s.success = false → s.err_message ≠ "") :
    (step s l).success = false → (step s l).err_message ≠ "" := by
  unfold step
  repeat' (first | split | dsimp only)
  · exact h
  · intro hs
    exact strNeAppendRight _ _ (jsonDecodeNote_ne _)
  · exact stepEvent_errP _ _ _ h

theorem foldl_step_errP (s : AggState) (ls : List String)
    (h : s.success = false → s.err_message ≠ "") :
    (List.foldl step s ls).success = false →
      (List.foldl step s ls).err_message ≠ "" := by
  induction ls generalizing s with
  | nil => exact h
  | cons l t ih => exact ih (step s l) (step_errP s l h)

theorem sfb_goodP (s : AggState) (l : String) (o : List (String × Json)) (hf : Bool)
    (h : s.broken = true → s.success = false) :
    (stepFailBranch s l o hf).broken = true →
      (stepFailBranch s l o hf).success = false := by
  unfold stepFailBranch
  repeat' (first | split | dsimp only)
  all_goals intro hb
  all_goals
    first
    | rfl
    | simp_all

theorem seb_goodP (s : AggState) (l : String) (o : List (String × Json)) (he : Bool)
    (h : s.broken = true → s.success = false) :
    (stepErrorBranch s l o he).broken = true →
      (stepErrorBranch s l o he).success = false := by
  unfold stepErrorBranch
  repeat' (first | split | dsimp only)
  all_goals intro hb
  all_goals
    first
    | rfl
    | exact h hb

theorem fes_goodP (s2 : AggState) (l : String) (o : List (String × Json)) (tyv : Json)
    (h : s2.broken = true → s2.success = false) :
    (failErrorStage s2 l o tyv).broken = true →
      (failErrorStage s2 l o tyv).success = false := by
  unfold failErrorStage
  repeat' (first | split | dsimp only)
  all_goals intro hb
  all_goals
    first
    | rfl
    | exact sfb_goodP _ _ _ _ h hb
    | exact seb_goodP _ _ _ _ (sfb_goodP _ _ _ _ h) hb

theorem stepObj_goodP (s : AggState) (l : String) (o : List (String × Json))
    (h : s.broken = true → s.success = false) :
    (stepObj s l o).broken = true → (stepObj s l o).success = false := by
  unfold stepObj
  repeat' (first | split | dsimp only)
  all_goals intro hb
  all_goals
    first
    | rfl
    | exact fes_goodP _ _ _ _ (fun hx => h (by simp_all)) hb

theorem stepEvent_goodP (s : AggState) (l : String) (v : Json)
    (h : s.broken = true → s.success = false) :
    (stepEvent s l v).broken = true → (stepEvent s l v).success = false := by
  unfold stepEvent
  repeat' (first | split | dsimp only)
  · exact stepObj_goodP _ _ _ (fun hx => h (by simp_all))
  all_goals intro _
  all_goals rfl

theorem step_goodP (s : AggState) (l : String)
    (h : s.broken = true → s.success = false) :
    (step s l).broken = true → (step s l).success = false := by
  unfold step
  repeat' (first | split | dsimp only)
  · exact h
  · intro hb
    simp_all
  · exact stepEvent_goodP _ _ _ h

theorem foldl_step_goodP (s : AggState) (ls : List String)
    (h : s.broken = true → s.success = false) :
    (List.foldl step s ls).broken = true →
      (List.foldl step s ls).success = false := by
  induction ls generalizing s with
  | nil => exact h
  | cons l t ih => exact ih (step s l) (step_goodP s l h)

theorem step_broken_mono (s : AggState) (l : String)
    (h : (step s l).broken = false) : s.broken = false := by
  by_cases hb : s.broken = true
  · rw [step_of_broken s l hb] at h
    exact h
  · simpa using hb

theorem strFoldl_append (g : String → String) (ls : List String) (a : String) :
    List.foldl (fun acc l => acc ++ g l) a ls =
      a ++ List.foldl (fun acc l => acc ++ g l) "" ls := by
  induction ls generalizing a with
  | nil => simp
  | cons l t ih =>
    rw [List.foldl_cons, List.foldl_cons, ih (a ++ g l), ih ("" ++ g l)]
    rw [String.append_assoc]
    simp

theorem stepObj_agent_acc (s : AggState) (l : String) (o : List (String × Json))
    (hb : (stepObj s l o).broken = false) :
    (stepObj s l o).agent_messages = s.agent_messages ++
      (match dictGetD o ("item") (Json.obj []) with
       | Json.obj itemF =>
         if jsonEqStr (dictGetD itemF ("type") (Json.str (""))) ("agent_message") then
           match dictGetD itemF ("text") (Json.str ("")) with
           | Json.str t => t
           | _ => ""
         else ""
       | _ => "") := by
  revert hb
  unfold stepObj
  repeat' (first | split | dsimp only)
  all_goals intro hb
  all_goals simp_all [fatalState, fes_agent_eq]

theorem stepObj_thread_acc (s : AggState) (l : String) (o : List (String × Json))
    (hb : (stepObj s l o).broken = false) :
    (stepObj s l o).thread_id =
      (match dictGet o ("thread_id") with
       | some Json.null => s.thread_id
       | none => s.thread_id
       | some v => some v) := by
  revert hb
  unfold stepObj
  repeat' (first | split | dsimp only)
  all_goals intro hb
  all_goals simp_all [fatalState, fes_thread_eq]

theorem step_agent_acc (s : AggState) (l : String)
    (hb : (step s l).broken = false) :
    (step s l).agent_messages = s.agent_messages ++ lineAgentText l := by
  have hs := step_broken_mono s l hb
  revert hb
  unfold step lineAgentText
  rw [if_neg (by simp [hs])]
  cases hp : parsePyJson (pyStrip l) with
  | none => intro _; simp
  | some v =>
    cases v with
    | obj o =>
      unfold stepEvent
      dsimp only
      intro hb
      exact stepObj_agent_acc _ _ _ hb
    | null => intro hb; simp [stepEvent, fatalState] at hb
    | bool b => intro hb; simp [stepEvent, fatalState] at hb
    | num n => intro hb; simp [stepEvent, fatalState] at hb
    | str s2 => intro hb; simp [stepEvent, fatalState] at hb
    | arr xs => intro hb; simp [stepEvent, fatalState] at hb

theorem step_thread_acc (s : AggState) (l : String)
    (hb : (step s l).broken = false) :
    (step s l).thread_id =
      (match parsePyJson (pyStrip l) with
       | some (Json.obj o) =>
         match dictGet o ("thread_id") with
         | some Json.null => s.thread_id
         | none => s.thread_id
         | some v => some v
       | _ => s.thread_id) := by
  have hs := step_broken_mono s l hb
  revert hb
  unfold step
  rw [if_neg (by simp [hs])]
  cases hp : parsePyJson (pyStrip l) with
  | none => intro _; rfl
  | some v =>
    cases v with
    | obj o =>
      unfold stepEvent
      dsimp only
      intro hb
      exact stepObj_thread_acc _ _ _ hb
    | null => intro hb; simp [stepEvent, fatalState] at hb
    | bool b => intro hb; simp [stepEvent, fatalState] at hb
    | num n => intro hb; simp [stepEvent, fatalState] at hb
    | str s2 => intro hb; simp [stepEvent, fatalState] at hb
    | arr xs => intro hb; simp [stepEvent, fatalState] at hb

theorem foldl_agent_acc (ls : List String) (s : AggState)
    (hb : (List.foldl step s ls).broken = false) :
    (List.foldl step s ls).agent_messages =
      List.foldl (fun acc l => acc ++ lineAgentText l) s.agent_messages ls := by
  induction ls generalizing s with
  | nil => rfl
  | cons l t ih =>
    rw [List.foldl_cons, List.foldl_cons]
    have hb1 : (step s l).broken = false := by
      by_cases hc : (step s l).broken = true
      · rw [List.foldl_cons, foldl_step_of_broken _ _ hc] at hb
        rw [hc] at hb
        cases hb
      · simpa using hc
    rw [ih (step s l) (by rw [List.foldl_cons] at hb; exact hb)]
    rw [step_agent_acc s l hb1]

theorem foldl_thread_acc (ls : List String) (s : AggState)
    (hb : (List.foldl step s ls).broken = false) :
    (List.foldl step s ls).thread_id =
      List.foldl
        (fun acc l =>
          match parsePyJson (pyStrip l) with
          | some (Json.obj o) =>
            match dictGet o ("thread_id") with
            | some Json.null => acc
            | none => acc
            | some v => some v
          | _ => acc)
        s.thread_id ls := by
  induction ls generalizing s with
  | nil => rfl
  | cons l t ih =>
    rw [List.foldl_cons, List.foldl_cons]
    have hb1 : (step s l).broken = false := by
      by_cases hc : (step s l).broken = true
      · rw [List.foldl_cons, foldl_step_of_broken _ _ hc] at hb
        rw [hc] at hb
        cases hb
      · simpa using hc
    rw [ih (step s l) (by rw [List.foldl_cons] at hb; exact hb)]
    rw [step_thread_acc s l hb1]

theorem finalize_success_imp (s : AggState) (ra : Bool)
    (h : (finalize s ra).success = true) :
    s.thread_id.isSome = true ∧ s.agent_messages ≠ "" ∧ s.success = true := by
  revert h
  unfold finalize
  repeat' (first | split | dsimp only)
  all_goals intro h
  all_goals simp_all [Option.isNone_iff_eq_none, Option.isSome_iff_exists]
  all_goals
    cases ho : s.thread_id with
    | none => simp_all
    | some v => exact ⟨v, rfl⟩

theorem finalize_session_of_success (s : AggState) (ra : Bool)
    (h : (finalize s ra).success = true) :
    (finalize s ra).SESSION_ID = s.thread_id ∧
      (finalize s ra).agent_messages = some s.agent_messages := by
  revert h
  unfold finalize
  repeat' (first | split | dsimp only)
  all_goals intro h
  all_goals simp_all

theorem finalize_session_ne_none (s : AggState) (ra : Bool)
    (h : (finalize s ra).SESSION_ID ≠ none) :
    (finalize s ra).success = true := by
  revert h
  unfold finalize
  repeat' (first | split | dsimp only)
  all_goals intro h
  all_goals simp_all

theorem finalize_error_of_failure (s : AggState) (ra : Bool)
    (hP : s.success = false → s.err_message ≠ "")
    (h : (finalize s ra).success = false) :
    ∃ e, (finalize s ra).error = some e ∧ e ≠ "" := by
  by_cases h2 : s.agent_messages = ""
  · by_cases h1 : s.thread_id.isNone = true
    · refine ⟨noAgentNote ++ (noSessionNote ++ s.err_message), ?_,
        strNeAppendLeft _ _ (by decide)⟩
      simp [finalize, h1, h2]
    · refine ⟨noAgentNote ++ s.err_message, ?_, strNeAppendLeft _ _ (by decide)⟩
      simp [finalize, h1, h2]
  · by_cases h1 : s.thread_id.isNone = true
    · refine ⟨noSessionNote ++ s.err_message, ?_, strNeAppendLeft _ _ (by decide)⟩
      simp [finalize, h1, h2]
    · have hs : s.success = false := by
        by_cases hs2 : s.success = true
        · exfalso
          revert h
          simp [finalize, h1, h2, hs2]
        · simpa using hs2
      refine ⟨s.err_message, ?_, hP hs⟩
      simp [finalize, h1, h2, hs]

theorem stepObj_agent_eq_of_not_msg (s : AggState) (l : String)
    (o : List (String × Json)) (h : isAgentMessageEvent o = false) :
    (stepObj s l o).agent_messages = s.agent_messages := by
  unfold isAgentMessageEvent at h
  unfold stepObj
  repeat' (first | split | dsimp only)
  all_goals simp_all [fatalState, fes_agent_eq]

theorem step_agent_eq_of_not_msgline (s : AggState) (l : String)
    (h : isAgentMessageLine l = false) :
    (step s l).agent_messages = s.agent_messages := by
  unfold isAgentMessageLine at h
  by_cases hb : s.broken = true
  · rw [step_of_broken s l hb]
  · unfold step
    rw [if_neg (by simp_all)]
    cases hp : parsePyJson (pyStrip l) with
    | none => rfl
    | some v =>
      rw [hp] at h
      cases v with
      | obj o =>
        unfold stepEvent
        dsimp only
        exact stepObj_agent_eq_of_not_msg _ _ _ h
      | null => rfl
      | bool b => rfl
      | num n => rfl
      | str s2 => rfl
      | arr xs => rfl

theorem foldl_agent_empty (ls : List String) (s : AggState)
    (h : ∀ l ∈ ls, isAgentMessageLine l = false) (ha : s.agent_messages = "") :
    (List.foldl step s ls).agent_messages = "" := by
  induction ls generalizing s with
  | nil => exact ha
  | cons l t ih =>
    rw [List.foldl_cons]
    refine ih (step s l) (fun x hx => h x (List.mem_cons_of_mem _ hx)) ?_
    rw [step_agent_eq_of_not_msgline s l (h l (List.mem_cons_self _ _))]
    exact ha

theorem sfb_fail_sets_false (s : AggState) (l : String) (o : List (String × Json))
    (ha : s.agent_messages = "") :
    (stepFailBranch s l o true).success = false := by
  unfold stepFailBranch
  rw [if_pos rfl]
  repeat' (first | split | dsimp only)
  all_goals simp_all [fatalState]

theorem seb_error_sets_false (s : AggState) (l : String) (o : List (String × Json))
    (ha : s.agent_messages = "")
    (hm : (match dictGetD o ("message") (Json.str ("")) with
           | Json.str m => isReconnecting m
           | _ => false) = false) :
    (stepErrorBranch s l o true).success = false := by
  unfold stepErrorBranch
  rw [if_pos rfl]
  repeat' (first | split | dsimp only)
  all_goals simp_all [fatalState]

theorem fes_sets_false (s2 : AggState) (l : String) (o : List (String × Json))
    (ty : String) (hbr : s2.broken = false) (ha : s2.agent_messages = "")
    (hsig : (strContains ty ("fail") ||
       (strContains ty ("error") &&
         !(match dictGetD o ("message") (Json.str ("")) with
           | Json.str m => isReconnecting m
           | _ => false))) = true) :
    (failErrorStage s2 l o (Json.str ty)).success = false := by
  unfold failErrorStage
  dsimp only [pyInStr]
  rcases Bool.or_eq_true_iff.mp hsig with hfail | herr
  · rw [hfail]
    have h1 := sfb_fail_sets_false s2 l o ha
    split
    · exact h1
    · exact seb_success_false _ _ _ _ h1
  · have hne := Bool.and_eq_true_iff.mp herr
    by_cases hfail : strContains ty ("fail") = true
    · rw [hfail]
      have h1 := sfb_fail_sets_false s2 l o ha
      split
      · exact h1
      · exact seb_success_false _ _ _ _ h1
    · have hfail2 : strContains ty ("fail") = false := by simpa using hfail
      rw [hfail2, sfb_false, if_neg (by simp [hbr]), hne.1]
      exact seb_error_sets_false s2 l o ha (by simpa using hne.2)

theorem step_fail_sets_false (s : AggState) (line : String) (o : List (String × Json))
    (hb : s.broken = false) (ha : s.agent_messages = "")
    (hp : parsePyJson (pyStrip line) = some (Json.obj o))
    (hsig : isFailureSignal o = true)
    (hnm : isAgentMessageEvent o = false) :
    (step s line).success = false := by
  unfold step
  rw [if_neg (by simp [hb]), hp]
  unfold stepEvent
  dsimp only
  unfold isFailureSignal at hsig
  unfold isAgentMessageEvent at hnm
  unfold stepObj
  cases hitem : dictGetD o ("item") (Json.obj []) with
  | obj itemF =>
    rw [hitem] at hnm
    have hnm2 : jsonEqStr (dictGetD itemF ("type") (Json.str (""))) ("agent_message") = false := by
      simpa using hnm
    dsimp only
    rw [if_neg (by simp [hnm2])]
    dsimp only
    cases hty : dictGetD o ("type") (Json.str ("")) with
    | str ty =>
      rw [hty] at hsig
      refine fes_sets_false _ line o ty ?_ ?_ hsig
      · cases hdg : dictGet o ("thread_id") with
        | none => simpa using hb
        | some v => cases v <;> simp_all
      · cases hdg : dictGet o ("thread_id") with
        | none => simpa using ha
        | some v => cases v <;> simp_all
    | null => rw [hty] at hsig; simp at hsig
    | bool b => rw [hty] at hsig; simp at hsig
    | num n => rw [hty] at hsig; simp at hsig
    | arr xs => rw [hty] at hsig; simp at hsig
    | obj o2 => rw [hty] at hsig; simp at hsig
  | null => exact fatalState_success _ _ _
  | bool b => exact fatalState_success _ _ _
  | num n => exact fatalState_success _ _ _
  | str s2 => exact fatalState_success _ _ _
  | arr xs => exact fatalState_success _ _ _

theorem sfb_keeps (s : AggState) (l : String) (o : List (String × Json)) (hf : Bool)
    (ha : s.agent_messages ≠ "")
    (hwf : hf = true →
      (match dictGetD o ("error") (Json.obj []) with
       | Json.obj ef =>
         match dictGetD ef ("message") (Json.str ("")) with
         | Json.str _ => true
         | _ => false
       | _ => false) = true) :
    (stepFailBranch s l o hf).success = s.success ∧
      (stepFailBranch s l o hf).broken = s.broken ∧
      (stepFailBranch s l o hf).agent_messages = s.agent_messages := by
  cases hf with
  | false => rw [sfb_false]; exact ⟨rfl, rfl, rfl⟩
  | true =>
    have h2 := hwf rfl
    unfold stepFailBranch
    rw [if_pos rfl]
    repeat' (first | split | dsimp only)
    all_goals simp_all

theorem seb_keeps (s : AggState) (l : String) (o : List (String × Json)) (he : Bool)
    (ha : s.agent_messages ≠ "")
    (hwf : he = true →
      (match dictGetD o ("message") (Json.str ("")) with
       | Json.str _ => true
       | _ => false) = true) :
    (stepErrorBranch s l o he).success = s.success ∧
      (stepErrorBranch s l o he).broken = s.broken := by
  cases he with
  | false => rw [seb_false]; exact ⟨rfl, rfl⟩
  | true =>
    have h2 := hwf rfl
    unfold stepErrorBranch
    rw [if_pos rfl]
    repeat' (first | split | dsimp only)
    all_goals simp_all

theorem fes_noflip (s2 : AggState) (l : String) (o : List (String × Json)) (tyv : Json)
    (hbr : s2.broken = false) (ha : s2.agent_messages ≠ "")
    (hwfT : (match pyInStr ("fail") tyv, pyInStr ("error") tyv with
             | some hasFail, some hasError =>
               (!hasFail || (match dictGetD o ("error") (Json.obj []) with
                  | Json.obj ef =>
                    match dictGetD ef ("message") (Json.str ("")) with
                    | Json.str _ => true
                    | _ => false
                  | _ => false)) &&
               (!hasError || (match dictGetD o ("message") (Json.str ("")) with
                  | Json.str _ => true
                  | _ => false))
             | _, _ => false) = true) :
    (failErrorStage s2 l o tyv).success = s2.success := by
  cases hf0 : pyInStr ("fail") tyv with
  | none => rw [hf0] at hwfT; simp at hwfT
  | some hf =>
    cases he0 : pyInStr ("error") tyv with
    | none => rw [hf0, he0] at hwfT; simp at hwfT
    | some he =>
      rw [hf0, he0] at hwfT
      dsimp only at hwfT
      have hwf2 := Bool.and_eq_true_iff.mp hwfT
      have hkF := sfb_keeps s2 l o hf ha (fun hft => by
        rw [hft] at hwf2
        simpa using hwf2.1)
      unfold failErrorStage
      rw [hf0]
      dsimp only
      rw [hkF.2.1, if_neg (by simp [hbr]), he0]
      dsimp only
      have hkE := seb_keeps (stepFailBranch s2 l o hf) l o he
        (by rw [hkF.2.2]; exact ha) (fun het => by
          rw [het] at hwf2
          simpa using hwf2.2)
      rw [hkE.1, hkF.1]

theorem fes_noflip_keep (s2 : AggState) (l : String) (o : List (String × Json))
    (tyv : Json) (b : Bool)
    (hbr : s2.broken = false) (ha : s2.agent_messages ≠ "")
    (hwfT : (match pyInStr ("fail") tyv, pyInStr ("error") tyv with
             | some hasFail, some hasError =>
               (!hasFail || (match dictGetD o ("error") (Json.obj []) with
                  | Json.obj ef =>
                    match dictGetD ef ("message") (Json.str ("")) with
                    | Json.str _ => true
                    | _ => false
                  | _ => false)) &&
               (!hasError || (match dictGetD o ("message") (Json.str ("")) with
                  | Json.str _ => true
                  | _ => false))
             | _, _ => false) = true)
    (hb : s2.success = b) :
    (failErrorStage s2 l o tyv).success = b := by
  rw [fes_noflip s2 l o tyv hbr ha hwfT]
  exact hb

theorem step_noflip_of_agent (s : AggState) (line : String) (o : List (String × Json))
    (hp : parsePyJson (pyStrip line) = some (Json.obj o))
    (hwf : eventWellFormed o = true) (ha : s.agent_messages ≠ "") :
    (step s line).success = s.success := by
  by_cases hb : s.broken = true
  · rw [step_of_broken s line hb]
  · have hbf : s.broken = false := by simpa using hb
    unfold step
    rw [if_neg (by simp [hbf]), hp]
    unfold stepEvent
    dsimp only
    unfold eventWellFormed at hwf
    unfold stepObj
    repeat' (first | split | dsimp only)
    all_goals first
      | (simp_all; done)
      | (apply fes_noflip_keep <;>
          first
          | rfl
          | exact ha
          | exact strNeAppendLeft _ _ ha
          | simp_all)

theorem seb_skip (s : AggState) (l : String) (o : List (String × Json)) (he : Bool)
    (m : String) (hmsg : dictGetD o ("message") (Json.str ("")) = Json.str m)
    (hrec : isReconnecting m = true) :
    stepErrorBranch s l o he = s := by
  unfold stepErrorBranch
  split
  · rw [hmsg]
    dsimp only
    rw [if_pos hrec]
  · rfl

theorem fes_skip (s2 : AggState) (l : String) (o : List (String × Json)) (ty m : String)
    (hnofail : strContains ty ("fail") = false)
    (hmsg : dictGetD o ("message") (Json.str ("")) = Json.str m)
    (hrec : isReconnecting m = true) :
    failErrorStage s2 l o (Json.str ty) = s2 := by
  unfold failErrorStage
  dsimp only [pyInStr]
  rw [hnofail, sfb_false]
  split
  · rfl
  · exact seb_skip s2 l o _ m hmsg hrec

theorem fes_skip_success (s2 : AggState) (l : String) (o : List (String × Json))
    (ty m : String) (b : Bool) (hnofail : strContains ty ("fail") = false)
    (hmsg : dictGetD o ("message") (Json.str ("")) = Json.str m)
    (hrec : isReconnecting m = true) (hb : s2.success = b) :
    (failErrorStage s2 l o (Json.str ty)).success = b := by
  rw [fes_skip s2 l o ty m hnofail hmsg hrec]
  exact hb

theorem fes_skip_err (s2 : AggState) (l : String) (o : List (String × Json))
    (ty m : String) (e : String) (hnofail : strContains ty ("fail") = false)
    (hmsg : dictGetD o ("message") (Json.str ("")) = Json.str m)
    (hrec : isReconnecting m = true) (hb : s2.err_message = e) :
    (failErrorStage s2 l o (Json.str ty)).err_message = e := by
  rw [fes_skip s2 l o ty m hnofail hmsg hrec]
  exact hb

theorem step_reconnect_skip (s : AggState) (line : String) (o : List (String × Json))
    (ty m : String)
    (hp : parsePyJson (pyStrip line) = some (Json.obj o))
    (hty : dictGetD o ("type") (Json.str ("")) = Json.str ty)
    (hnofail : strContains ty ("fail") = false)
    (hmsg : dictGetD o ("message") (Json.str ("")) = Json.str m)
    (hrec : isReconnecting m = true)
    (hwf : eventWellFormed o = true) :
    (step s line).success = s.success ∧ (step s line).err_message = s.err_message := by
  by_cases hb : s.broken = true
  · rw [step_of_broken s line hb]
    exact ⟨rfl, rfl⟩
  · have hbf : s.broken = false := by simpa using hb
    unfold eventWellFormed at hwf
    refine ⟨?_, ?_⟩
    all_goals
      unfold step
      rw [if_neg (by simp [hbf]), hp]
      unfold stepEvent
      dsimp only
      unfold stepObj
      rw [hty]
      repeat' (first | split | dsimp only)
    all_goals first
      | (simp_all; done)
      | (apply fes_skip_success <;>
          first | rfl | exact hnofail | exact hrec | exact hmsg)
      | (apply fes_skip_err <;>
          first | rfl | exact hnofail | exact hrec | exact hmsg)

theorem sfb_core_congr (s1 s2 : AggState) (l : String) (o : List (String × Json))
    (hf : Bool) (h : coreEq s1 s2) :
    coreEq (stepFailBranch s1 l o hf) (stepFailBranch s2 l o hf) := by
  obtain ⟨a1, m1, su1, e1, t1, b1⟩ := s1
  obtain ⟨a2, m2, su2, e2, t2, b2⟩ := s2
  obtain ⟨h1, h2, h3, h4, h5⟩ := h
  dsimp only at h1 h2 h3 h4 h5
  subst h1
  subst h2
  subst h3
  subst h4
  subst h5
  unfold stepFailBranch fatalState
  repeat' (first | split | dsimp only)
  all_goals simp_all [coreEq]

theorem seb_core_congr (s1 s2 : AggState) (l : String) (o : List (String × Json))
    (he : Bool) (h : coreEq s1 s2) :
    coreEq (stepErrorBranch s1 l o he) (stepErrorBranch s2 l o he) := by
  obtain ⟨a1, m1, su1, e1, t1, b1⟩ := s1
  obtain ⟨a2, m2, su2, e2, t2, b2⟩ := s2
  obtain ⟨h1, h2, h3, h4, h5⟩ := h
  dsimp only at h1 h2 h3 h4 h5
  subst h1
  subst h2
  subst h3
  subst h4
  subst h5
  unfold stepErrorBranch fatalState
  repeat' (first | split | dsimp only)
  all_goals simp_all [coreEq]

theorem failErrorStage_core_congr (s1 s2 : AggState) (l : String)
    (o : List (String × Json)) (tyv : Json) (h : coreEq s1 s2) :
    coreEq (failErrorStage s1 l o tyv) (failErrorStage s2 l o tyv) := by
  unfold failErrorStage
  cases hf0 : pyInStr ("fail") tyv with
  | none =>
    obtain ⟨h1, h2, h3, h4, h5⟩ := h
    dsimp only
    simp [coreEq, fatalState, h1, h2, h4]
  | some hf =>
    have hc := sfb_core_congr s1 s2 l o hf h
    have hbr : (stepFailBranch s1 l o hf).broken = (stepFailBranch s2 l o hf).broken :=
      hc.2.2.2.2
    dsimp only
    rw [hbr]
    split
    · exact hc
    · cases he0 : pyInStr ("error") tyv with
      | none =>
        dsimp only
        simp [coreEq, fatalState, hc.1, hc.2.1, hc.2.2.2.1]
      | some he => exact seb_core_congr _ _ l o he hc

theorem step_core_congr (s1 s2 : AggState) (l : String) (h : coreEq s1 s2) :
    coreEq (step s1 l) (step s2 l) := by
  obtain ⟨a1, m1, su1, e1, t1, b1⟩ := s1
  obtain ⟨a2, m2, su2, e2, t2, b2⟩ := s2
  obtain ⟨h1, h2, h3, h4, h5⟩ := h
  dsimp only at h1 h2 h3 h4 h5
  subst h1
  subst h2
  subst h3
  subst h4
  subst h5
  unfold step stepEvent stepObj
  repeat' (first | split | dsimp only)
  all_goals try (simp_all [coreEq, fatalState]; done)
  all_goals refine failErrorStage_core_congr _ _ _ _ _ ?_
  all_goals simp [coreEq]

theorem foldl_core_congr (ls : List String) (s1 s2 : AggState) (h : coreEq s1 s2) :
    coreEq (List.foldl step s1 ls) (List.foldl step s2 ls) := by
  induction ls generalizing s1 s2 with
  | nil => exact h
  | cons l t ih => exact ih _ _ (step_core_congr s1 s2 l h)

theorem finalize_success_congr (s1 s2 : AggState) (ra : Bool) (h : coreEq s1 s2) :
    (finalize s1 ra).success = (finalize s2 ra).success := by
  obtain ⟨a1, m1, su1, e1, t1, b1⟩ := s1
  obtain ⟨a2, m2, su2, e2, t2, b2⟩ := s2
  obtain ⟨h1, h2, h3, h4, h5⟩ := h
  dsimp only at h1 h2 h3 h4 h5
  subst h1
  subst h2
  subst h3
  subst h4
  subst h5
  unfold finalize
  repeat' (first | split | dsimp only)

theorem hasInfixL_append_left (pat t : List Char) (s : List Char)
    (h : hasInfixL pat t = true) : hasInfixL pat (s ++ t) = true := by
  induction s with
  | nil => exact h
  | cons c s2 ih => simp [hasInfixL, ih]

theorem strContains_mono_left (x y sub : String) (h : strContains y sub = true) :
    strContains (x ++ y) sub = true := by
  unfold strContains at h ⊢
  rw [String.data_append]
  exact hasInfixL_append_left _ _ _ h

theorem strContains_self (s : String) : strContains s s = true := by
  unfold strContains
  cases hd : s.data with
  | nil => rfl
  | cons c t => simp [hasInfixL, leadsWith_self]

theorem strContains_unexpected (e d l : String) :
    strContains (e ++ unexpectedNote d l) (pyRepr l) = true := by
  apply strContains_mono_left
  unfold unexpectedNote
  apply strContains_mono_left
  apply strContains_mono_left
  apply strContains_mono_left
  apply strContains_mono_left
  exact strContains_self _

theorem fatalState_err_contains (s : AggState) (l d : String) :
    strContains (fatalState s l d).err_message (pyRepr l) = true :=
  strContains_unexpected s.err_message d l

theorem failErrorStage_fatal (s2 : AggState) (l : String) (o : List (String × Json))
    (tyv : Json) (hbr2 : s2.broken = false)
    (hbad : (match pyInStr ("fail") tyv, pyInStr ("error") tyv with
             | some hasFail, some hasError =>
               (!hasFail || (match dictGetD o ("error") (Json.obj []) with
                  | Json.obj ef =>
                    match dictGetD ef ("message") (Json.str ("")) with
                    | Json.str _ => true
                    | _ => false
                  | _ => false)) &&
               (!hasError || (match dictGetD o ("message") (Json.str ("")) with
                  | Json.str _ => true
                  | _ => false))
             | _, _ => false) = false) :
    (failErrorStage s2 l o tyv).success = false ∧
      (failErrorStage s2 l o tyv).broken = true ∧
      strContains (failErrorStage s2 l o tyv).err_message (pyRepr l) = true := by
  unfold failErrorStage stepFailBranch stepErrorBranch
  repeat' (first | split | dsimp only)
  all_goals
    first
    | (refine ⟨rfl, rfl, ?_⟩
       first
       | exact fatalState_err_contains _ _ _
       | exact strContains_unexpected _ _ _)
    | simp_all [fatalState]

theorem stepObj_fatal (s : AggState) (l : String) (o : List (String × Json))
    (hb : s.broken = false) (hwfFalse : eventWellFormed o = false) :
    (stepObj s l o).success = false ∧ (stepObj s l o).broken = true ∧
      strContains (stepObj s l o).err_message (pyRepr l) = true := by
  unfold eventWellFormed at hwfFalse
  unfold stepObj
  repeat' (first | split | dsimp only)
  all_goals
    first
    | (refine ⟨rfl, rfl, ?_⟩
       exact fatalState_err_contains _ _ _)
    | (apply failErrorStage_fatal <;> simp_all)

theorem step_fatal (s : AggState) (l : String) (v : Json)
    (hb : s.broken = false) (hp : parsePyJson (pyStrip l) = some v)
    (hf : fatalEvent v = true) :
    (step s l).success = false ∧ (step s l).broken = true ∧
      strContains (step s l).err_message (pyRepr l) = true := by
  unfold step
  rw [if_neg (by simp [hb]), hp]
  unfold stepEvent
  dsimp only
  cases v with
  | obj o =>
    exact stepObj_fatal _ _ _ (by simpa using hb) (by simpa [fatalEvent] using hf)
  | null => exact ⟨rfl, rfl, strContains_unexpected _ _ _⟩
  | bool b => exact ⟨rfl, rfl, strContains_unexpected _ _ _⟩
  | num n => exact ⟨rfl, rfl, strContains_unexpected _ _ _⟩
  | str s2 => exact ⟨rfl, rfl, strContains_unexpected _ _ _⟩
  | arr xs => exact ⟨rfl, rfl, strContains_unexpected _ _ _⟩

theorem step_nonobject_eq (s : AggState) (l : String) (v : Json)
    (hb : s.broken = false) (hp : parsePyJson (pyStrip l) = some v)
    (hno : (match v with | Json.obj _ => False | _ => True)) :
    step s l =
      fatalState { s with all_messages := s.all_messages ++ [v] } l
        ("object has no attribute get") := by
  unfold step
  rw [if_neg (by simp [hb]), hp]
  unfold stepEvent
  dsimp only
  cases v with
  | obj o => cases hno
  | null => rfl
  | bool b => rfl
  | num n => rfl
  | str s2 => rfl
  | arr xs => rfl

theorem failErrorStage_thread_eq (s : AggState) (l : String) (o : List (String × Json))
    (tyv : Json) : (failErrorStage s l o tyv).thread_id = s.thread_id :=
  fes_thread_eq s l o tyv

theorem stepObj_thread_none (s : AggState) (l : String) (o : List (String × Json))
    (hc : (match dictGet o ("thread_id") with
           | some Json.null => false
           | none => false
           | some _ => true) = false)
    (ht : s.thread_id = none) : (stepObj s l o).thread_id = none := by
  unfold stepObj
  repeat' (first | split | dsimp only)
  all_goals simp_all [fatalState, failErrorStage_thread_eq]

theorem step_thread_none (s : AggState) (l : String)
    (hc : carriesThreadId l = false) (ht : s.thread_id = none) :
    (step s l).thread_id = none := by
  by_cases hb : s.broken = true
  · rw [step_of_broken s l hb]
    exact ht
  · unfold step
    rw [if_neg (by simp_all)]
    unfold carriesThreadId at hc
    cases hp : parsePyJson (pyStrip l) with
    | none => exact ht
    | some v =>
      rw [hp] at hc
      unfold stepEvent
      dsimp only
      cases v with
      | obj o => exact stepObj_thread_none _ _ _ hc ht
      | null => exact ht
      | bool b => exact ht
      | num n => exact ht
      | str s2 => exact ht
      | arr xs => exact ht

theorem foldl_thread_none (ls : List String) (s : AggState)
    (hc : ∀ l ∈ ls, carriesThreadId l = false) (ht : s.thread_id = none) :
    (List.foldl step s ls).thread_id = none := by
  induction ls generalizing s with
  | nil => exact ht
  | cons l t ih =>
    rw [List.foldl_cons]
    exact ih (step s l) (fun x hx => hc x (List.mem_cons_of_mem _ hx))
      (step_thread_none s l (hc l (List.mem_cons_self _ _)) ht)

theorem finalize_thread_none (s : AggState) (ra : Bool) (ht : s.thread_id = none) :
    (finalize s ra).success = false := by
  unfold finalize
  repeat' (first | split | dsimp only)
  all_goals simp_all

/-- C1 (failure precedence): a failure-signaling event (type containing
"fail", or "error" with a non-reconnecting message) arriving strictly
before any agent-message event forces the final verdict to failure; the
identical event processed when assistant text has already accumulated does
not flip `success` to false. -/
theorem claim1_failure_precedence (line : String) (o : List (String × Json)) (ra : Bool)
    (hparse : parsePyJson (pyStrip line) = some (Json.obj o))
    (hsig : isFailureSignal o = true) :
    (∀ pre post : List String, (∀ l ∈ pre, isAgentMessageLine l = false) →
        isAgentMessageEvent o = false →
        (codexAggregate (pre ++ line :: post) ra).success = false) ∧
      (∀ s : AggState, s.agent_messages ≠ "" → eventWellFormed o = true →
        (step s line).success = s.success) := by
  constructor
  · intro pre post hpre hnm
    unfold codexAggregate
    rw [List.foldl_append, List.foldl_cons]
    by_cases hbr : (List.foldl step initAgg pre).broken = true
    · have hsf : (List.foldl step initAgg pre).success = false :=
        foldl_step_goodP initAgg pre (fun h0 => nomatch h0) hbr
      exact finalize_success_false _ _
        (foldl_step_success_false _ post (step_success_false _ _ hsf))
    · have hbf : (List.foldl step initAgg pre).broken = false := by simpa using hbr
      have ha : (List.foldl step initAgg pre).agent_messages = "" :=
        foldl_agent_empty pre initAgg hpre rfl
      exact finalize_success_false _ _
        (foldl_step_success_false _ post
          (step_fail_sets_false _ line o hbf ha hparse hsig hnm))
  · intro s ha hwf
    exact step_noflip_of_agent s line o hparse hwf ha

theorem claim1_witness :
    (codexAggregate ([c1failLine, c1okLine]) false).success = false ∧
      (step c1state c1failLine).success = c1state.success := by
  have h := claim1_failure_precedence c1failLine
    ([(("type" : String), Json.str ("turn.failed"))]) false (by rfl) (by rfl)
  exact ⟨h.1 [] [c1okLine] (by intro l hl; simp at hl) (by rfl),
    h.2 c1state (by decide) (by rfl)⟩

/-- C2 counterexample: the claim "success implies a non-empty session-id
string" is false — an event carrying `thread_id: ""` counts as an observed
identifier, so the aggregator succeeds with the empty string as
`SESSION_ID`. -/
theorem claim2_counterexample :
    (codexAggregate ([c2emptyTidLine]) false).success = true ∧
      (codexAggregate ([c2emptyTidLine]) false).SESSION_ID = some (Json.str ("")) :=
  ⟨rfl, rfl⟩

/-- C2 amended: `success = true` requires an observed (non-null, but
possibly empty or non-string) `thread_id` and a non-empty `agent_messages`;
`success = false` implies a non-empty `error` field; a stream with zero
events carrying `thread_id` always yields `success = false`. -/
theorem claim2_invariant_amended (lines : List String) (ra : Bool) :
    ((codexAggregate lines ra).success = true →
      (∃ v, (codexAggregate lines ra).SESSION_ID = some v) ∧
        (∃ t, (codexAggregate lines ra).agent_messages = some t ∧ t ≠ "")) ∧
      ((codexAggregate lines ra).success = false →
        ∃ e, (codexAggregate lines ra).error = some e ∧ e ≠ "") ∧
      ((∀ l ∈ lines, carriesThreadId l = false) →
        (codexAggregate lines ra).success = false) := by
  refine ⟨?_, ?_, ?_⟩
  · intro h
    have hi := finalize_success_imp (List.foldl step initAgg lines) ra h
    have hs := finalize_session_of_success (List.foldl step initAgg lines) ra h
    constructor
    · rcases Option.isSome_iff_exists.mp hi.1 with ⟨v, hv⟩
      exact ⟨v, by unfold codexAggregate; rw [hs.1, hv]⟩
    · exact ⟨(List.foldl step initAgg lines).agent_messages,
        by unfold codexAggregate; rw [hs.2], hi.2.1⟩
  · intro h
    exact finalize_error_of_failure _ ra
      (foldl_step_errP initAgg lines (fun h0 => nomatch h0)) h
  · intro h
    exact finalize_thread_none _ ra (foldl_thread_none lines initAgg h rfl)

theorem claim2_witness :
    ((∃ v, (codexAggregate ([c2okLine]) false).SESSION_ID = some v) ∧
      (∃ t, (codexAggregate ([c2okLine]) false).agent_messages = some t ∧ t ≠ "")) ∧
      (∃ e, (codexAggregate (([] : List String)) false).error = some e ∧ e ≠ "") :=
  ⟨(claim2_invariant_amended ([c2okLine]) false).1 (by rfl),
    (claim2_invariant_amended ([] : List String) false).2.1 (by rfl)⟩

/-- C3 (last-write-wins session identifier): whenever the final result
carries a session identifier, it equals the `thread_id` of the last event
in the sequence whose `thread_id` field is present and non-null. -/
theorem claim3_last_thread_id (lines : List String) (ra : Bool) (v : Json)
    (h : (codexAggregate lines ra).SESSION_ID = some v) :
    lastThreadIdSpec lines = some v := by
  have hsucc : (codexAggregate lines ra).success = true :=
    finalize_session_ne_none _ ra (by unfold codexAggregate at h; simp [h])
  have himp := finalize_success_imp (List.foldl step initAgg lines) ra hsucc
  have hbrk : (List.foldl step initAgg lines).broken = false := by
    by_cases hb : (List.foldl step initAgg lines).broken = true
    · have := foldl_step_goodP initAgg lines (fun h0 => nomatch h0) hb
      rw [himp.2.2] at this
      cases this
    · simpa using hb
  have hs := finalize_session_of_success (List.foldl step initAgg lines) ra hsucc
  have hthr := foldl_thread_acc lines initAgg hbrk
  unfold codexAggregate at h
  rw [hs.1] at h
  rw [lastThreadIdSpec]
  exact hthr.symm.trans h

theorem claim3_witness : lastThreadIdSpec ([c3aLine, c3bLine]) = some (Json.str ("s2")) :=
  claim3_last_thread_id ([c3aLine, c3bLine]) false (Json.str ("s2")) (by rfl)

/-- C4 (agent-text concatenation): on success, the agent text of the final
result is the concatenation, in arrival order, of the `item.text` values
(defaulting to empty) of every event with `item.type == "agent_message"`. -/
theorem claim4_agent_text_concat (lines : List String) (ra : Bool)
    (h : (codexAggregate lines ra).success = true) :
    (codexAggregate lines ra).agent_messages = some (agentTextSpec lines) := by
  have himp := finalize_success_imp (List.foldl step initAgg lines) ra h
  have hbrk : (List.foldl step initAgg lines).broken = false := by
    by_cases hb : (List.foldl step initAgg lines).broken = true
    · have := foldl_step_goodP initAgg lines (fun h0 => nomatch h0) hb
      rw [himp.2.2] at this
      cases this
    · simpa using hb
  have hs := finalize_session_of_success (List.foldl step initAgg lines) ra h
  have hacc := foldl_agent_acc lines initAgg hbrk
  unfold codexAggregate
  rw [hs.2]
  rw [agentTextSpec]
  exact congrArg some hacc

theorem claim4_witness :
    (codexAggregate ([c3aLine, c3bLine]) false).agent_messages =
      some (agentTextSpec ([c3aLine, c3bLine])) :=
  claim4_agent_text_concat ([c3aLine, c3bLine]) false (by rfl)

/-- C5 counterexample: an event whose `type` contains "error" and whose
`message` is exactly "Reconnecting... 3/10" CAN cause `success = false`,
because a `type` containing both "fail" and "error" (here "failerror")
triggers the failure branch before the reconnect check; removing the event
restores success. -/
theorem claim5_counterexample :
    isErrorReconnectLine c5failErrLine = true ∧
      (codexAggregate ([c5tidLine, c5failErrLine, c5agentLine]) false).success = false ∧
      (codexAggregate ([c5tidLine, c5agentLine]) false).success = true :=
  ⟨rfl, rfl, rfl⟩

/-- C5 amended (reconnect suppression): an event whose `type` contains
"error" but not "fail", whose `message` is exactly "Reconnecting... 3/10",
and whose shape raises no unexpected error, leaves both `success` and the
diagnostic error text unchanged. -/
theorem claim5_reconnect_amended (s : AggState) (line : String)
    (o : List (String × Json)) (ty : String)
    (hp : parsePyJson (pyStrip line) = some (Json.obj o))
    (hty : dictGetD o ("type") (Json.str ("")) = Json.str ty)
    (herr : strContains ty ("error") = true)
    (hnofail : strContains ty ("fail") = false)
    (hmsg : dictGetD o ("message") (Json.str ("")) = Json.str ("Reconnecting... 3/10"))
    (hwf : eventWellFormed o = true) :
    (step s line).success = s.success ∧ (step s line).err_message = s.err_message :=
  step_reconnect_skip s line o ty ("Reconnecting... 3/10") hp hty hnofail hmsg
    (by decide) hwf

theorem claim5_witness :
    (step initAgg c5recLine).success = initAgg.success ∧
      (step initAgg c5recLine).err_message = initAgg.err_message :=
  claim5_reconnect_amended initAgg c5recLine
    ([(("type" : String), Json.str ("stream_error")),
      (("message" : String), Json.str ("Reconnecting... 3/10"))])
    ("stream_error") (by rfl) (by rfl) (by rfl) (by rfl) (by rfl) (by rfl)

/-- C6 (malformed-line recovery): a line that fails JSON parsing only
appends the json-decode diagnostic containing the line text and processing
continues (the state is otherwise untouched); prepending such a line to any
sequence leaves the final verdict unchanged, so a non-JSON line followed by
a valid success sequence still succeeds. -/
theorem claim6_malformed_recovery (line : String)
    (hline : parsePyJson (pyStrip line) = none) :
    (∀ s : AggState, s.broken = false →
        step s line =
          { s with err_message :=
              s.err_message ++ ("\n\n[json decode error] " ++ line) }) ∧
      (∀ rest : List String, ∀ ra : Bool,
        (codexAggregate (line :: rest) ra).success =
          (codexAggregate rest ra).success) := by
  constructor
  · intro s hbs
    unfold step
    rw [if_neg (by simp [hbs]), hline]
    rfl
  · intro rest ra
    unfold codexAggregate
    rw [List.foldl_cons]
    apply finalize_success_congr
    apply foldl_core_congr
    have h0 : step initAgg line =
        { initAgg with err_message := initAgg.err_message ++ jsonDecodeNote line } := by
      unfold step
      rw [if_neg (by simp [initAgg]), hline]
    rw [h0]
    exact ⟨rfl, rfl, rfl, rfl, rfl⟩

theorem claim6_witness :
    step initAgg ("oops not json") =
        { initAgg with err_message :=
            initAgg.err_message ++ ("\n\n[json decode error] " ++ "oops not json") } ∧
      (codexAggregate (("oops not json") :: [c2okLine]) false).success =
        (codexAggregate ([c2okLine]) false).success :=
  ⟨(claim6_malformed_recovery ("oops not json") (by rfl)).1 initAgg rfl,
    (claim6_malformed_recovery ("oops not json") (by rfl)).2 [c2okLine] false⟩

/-- C7 (unexpected-processing fatality): a parsed line whose processing
raises a non-decode exception sets `success` to false, breaks the loop, and
appends a diagnostic carrying the offending line rendered by `repr` (the
`line!r` of the Python format string); every subsequent line of the
sequence is ignored. -/
theorem claim7_unexpected_fatal (s : AggState) (line : String) (v : Json)
    (post : List String) (hb : s.broken = false)
    (hp : parsePyJson (pyStrip line) = some v) (hf : fatalEvent v = true) :
    (step s line).success = false ∧ (step s line).broken = true ∧
      strContains (step s line).err_message (pyRepr line) = true ∧
      List.foldl step (step s line) post = step s line := by
  have h3 := step_fatal s line v hb hp hf
  exact ⟨h3.1, h3.2.1, h3.2.2, foldl_step_of_broken _ post h3.2.1⟩

theorem claim7_witness :
    (step initAgg c7badLine).success = false ∧
      (step initAgg c7badLine).broken = true ∧
      strContains (step initAgg c7badLine).err_message (pyRepr c7badLine) = true ∧
      List.foldl step (step initAgg c7badLine) ([c2okLine]) = step initAgg c7badLine :=
  claim7_unexpected_fatal initAgg c7badLine
    (Json.obj [(("type" : String), Json.null)]) ([c2okLine]) rfl (by rfl) (by rfl)

/-- C10 (valid JSON, non-object): a line parsing to a JSON value that is
not an object is first appended to the full event log and then takes the
fatal unexpected-error path — `success` becomes false, the diagnostic with
the repr of the line is appended, `broken` is set — and consumption of the
remaining lines stops. -/
theorem claim10_nonobject_fatal (s : AggState) (line : String) (v : Json)
    (post : List String) (hb : s.broken = false)
    (hp : parsePyJson (pyStrip line) = some v)
    (hno : (match v with | Json.obj _ => False | _ => True)) :
    step s line =
        { all_messages := s.all_messages ++ [v], agent_messages := s.agent_messages,
          success := false,
          err_message := s.err_message ++ unexpectedNote ("object has no attribute get") line,
          thread_id := s.thread_id, broken := true } ∧
      List.foldl step (step s line) post = step s line := by
  have he := step_nonobject_eq s line v hb hp hno
  constructor
  · rw [he]
    rfl
  · rw [he]
    exact foldl_step_of_broken _ post rfl

theorem claim10_witness :
    step initAgg c10arrLine =
        { all_messages := initAgg.all_messages ++ [Json.arr [Json.num ("1"), Json.num ("2")]],
          agent_messages := initAgg.agent_messages,
          success := false,
          err_message :=
            initAgg.err_message ++ unexpectedNote ("object has no attribute get") c10arrLine,
          thread_id := initAgg.thread_id, broken := true } ∧
      List.foldl step (step initAgg c10arrLine) ([c2okLine]) = step initAgg c10arrLine :=
  claim10_nonobject_fatal initAgg c10arrLine
    (Json.arr [Json.num ("1"), Json.num ("2")]) ([c2okLine]) rfl (by rfl) trivial

theorem pyReplaceChar_append (x y : List Char) (old : Char) (new : List Char) :
    pyReplaceChar (x ++ y) old new = pyReplaceChar x old new ++ pyReplaceChar y old new := by
  induction x with
  | nil => rfl
  | cons c t ih => simp [pyReplaceChar, ih]

theorem we_single (c : Char) :
    pyReplaceChar (pyReplaceChar (pyReplaceChar (pyReplaceChar (pyReplaceChar (pyReplaceChar
      (pyReplaceChar (pyReplaceChar [c] bsChar [bsChar, bsChar]) dqChar [bsChar, dqChar])
      (Char.ofNat 10) [bsChar, 'n']) (Char.ofNat 13) [bsChar, 'r']) (Char.ofNat 9) [bsChar, 't'])
      (Char.ofNat 8) [bsChar, 'b']) (Char.ofNat 12) [bsChar, 'f']) sqChar [bsChar, sqChar]
      = (doubleBackslashes [c]).flatMap escSpecChar := by
  by_cases h1 : c = bsChar
  · subst h1
    decide
  · by_cases h2 : c = dqChar
    · subst h2
      decide
    · by_cases h3 : c = Char.ofNat 10
      · subst h3
        decide
      · by_cases h4 : c = Char.ofNat 13
        · subst h4
          decide
        · by_cases h5 : c = Char.ofNat 9
          · subst h5
            decide
          · by_cases h6 : c = Char.ofNat 8
            · subst h6
              decide
            · by_cases h7 : c = Char.ofNat 12
              · subst h7
                decide
              · by_cases h8 : c = sqChar
                · subst h8
                  decide
                · simp [pyReplaceChar, doubleBackslashes, escSpecChar,
                    h1, h2, h3, h4, h5, h6, h7, h8]

theorem we_chain_eq (cs : List Char) :
    pyReplaceChar (pyReplaceChar (pyReplaceChar (pyReplaceChar (pyReplaceChar (pyReplaceChar
      (pyReplaceChar (pyReplaceChar cs bsChar [bsChar, bsChar]) dqChar [bsChar, dqChar])
      (Char.ofNat 10) [bsChar, 'n']) (Char.ofNat 13) [bsChar, 'r']) (Char.ofNat 9) [bsChar, 't'])
      (Char.ofNat 8) [bsChar, 'b']) (Char.ofNat 12) [bsChar, 'f']) sqChar [bsChar, sqChar]
      = (doubleBackslashes cs).flatMap escSpecChar := by
  induction cs with
  | nil => rfl
  | cons c t ih =>
    have hsplit : (c :: t) = [c] ++ t := rfl
    rw [hsplit]
    simp only [pyReplaceChar_append]
    rw [we_single c, ih]
    unfold doubleBackslashes
    simp only [List.flatMap_append]

/-- C9 (prompt escaping): `windows_escape` equals the pure transform
described by the claim — double every backslash, then replace each
double-quote, LF, CR, tab, backspace, form-feed and single quote by a
backslash followed by its escape code, leaving other characters unchanged.
As a Lean function it is by construction deterministic and effect-free. -/
theorem claim9_windows_escape (p : String) : windows_escape p = windowsEscapeSpec p := by
  unfold windows_escape windowsEscapeSpec
  dsimp only
  exact congrArg String.mk (we_chain_eq p.data)

theorem filterMap_id_map_some (l : List String) :
    (l.map (fun x => some x)).filterMap id = l := by
  induction l with
  | nil => rfl
  | cons c t ih => simp [ih]

theorem producerPuts_no_term (childLines : List String)
    (h : ∀ l ∈ childLines, is_turn_completed (pyStrip l) = false) :
    producerPuts childLines = ((childLines.map pyStrip).map some) ++ [none] := by
  induction childLines with
  | nil => rfl
  | cons l t ih =>
    unfold producerPuts
    rw [if_neg (by simp [h l (List.mem_cons_self _ _)])]
    rw [ih (fun x hx => h x (List.mem_cons_of_mem _ hx))]
    simp

theorem orchInv_init (strips : List String) :
    orchInv strips ⟨(strips.map some) ++ [none], [], [], Phase.main⟩ := by
  refine ⟨?_, Or.inr ⟨0, by simp⟩, ?_, ?_, ?_⟩
  · simp [List.filterMap_append, filterMap_id_map_some]
  · intro hx
    exact absurd rfl hx
  · intro _ hc
    cases hc
  · intro hx
    cases hx

theorem orchInv_step (strips : List String) (s t : OrchState)
    (hs : orchInv strips s) (hstep : OrchStep s t) : orchInv strips t := by
  obtain ⟨hA, hB, hC, hD, hE⟩ := hs
  cases hstep with
  | put x r q y =>
    rcases hB with hB0 | ⟨k, hk⟩
    · cases hB0
    · simp only at hk
      cases hdrop : strips.drop k with
      | nil =>
        rw [hdrop] at hk
        simp at hk
        obtain ⟨hx, hr⟩ := hk
        subst hx
        subst hr
        refine ⟨?_, Or.inl rfl, fun _ => rfl, ?_, ?_⟩
        · simp only [List.filterMap_append] at hA ⊢
          simpa using hA
        · intro hc
          exact absurd rfl hc
        · intro hc
          cases hc
      | cons a t2 =>
        rw [hdrop] at hk
        simp at hk
        obtain ⟨hx, hr⟩ := hk
        subst hx
        refine ⟨?_, Or.inr ⟨k + 1, ?_⟩, ?_, ?_, ?_⟩
        · rw [← hA]
          simp [List.filterMap_append, List.append_assoc]
        · have : strips.drop (k + 1) = t2 := by
            have h2 : (strips.drop k).drop 1 = t2 := by rw [hdrop]; rfl
            rw [List.drop_drop] at h2
            simpa using h2
          rw [this]
          simpa using hr
        · intro hx
          exact absurd rfl hx
        · intro hne hc
          have hq : none ∉ q := hD (by simp)
          rcases List.mem_append.mp hc with hc1 | hc2
          · exact hq hc1
          · simp at hc2
        · intro hc
          cases hc
  | getLine tp l0 r y =>
    refine ⟨?_, hB, ?_, ?_, ?_⟩
    · rw [← hA]
      simp [List.append_assoc]
    · intro hx
      exact absurd rfl hx
    · intro hne hc
      exact hD hne (List.mem_cons_of_mem _ hc)
    · intro hc
      cases hc
  | getSentinel tp r y =>
    have htp : tp = [] := by
      by_cases hne : tp = []
      · exact hne
      · exact absurd (List.mem_cons_self _ _) (hD hne)
    subst htp
    refine ⟨?_, Or.inl rfl, fun _ => rfl, ?_, ?_⟩
    · simpa using hA
    · intro hc
      exact absurd rfl hc
    · intro hc
      cases hc
  | timeoutExit q y =>
    exact ⟨hA, Or.inl rfl, fun _ => rfl, fun hc => absurd rfl hc, fun hc => nomatch hc⟩
  | drainLine tp l0 r y =>
    have htp : tp = [] := hC (fun hc => nomatch hc)
    subst htp
    refine ⟨?_, Or.inl rfl, fun _ => rfl, fun hc => absurd rfl hc, fun hc => nomatch hc⟩
    rw [← hA]
    simp [List.append_assoc]
  | drainSentinel tp r y =>
    have htp : tp = [] := hC (fun hc => nomatch hc)
    subst htp
    refine ⟨?_, Or.inl rfl, fun _ => rfl, fun hc => absurd rfl hc, fun hc => nomatch hc⟩
    simpa using hA
  | finish tp y =>
    have htp : tp = [] := hC (fun hc => nomatch hc)
    subst htp
    exact ⟨hA, Or.inl rfl, fun _ => rfl, fun hc => absurd rfl hc, fun _ => rfl⟩

theorem orchReach_inv (childLines : List String)
    (hterm : ∀ l ∈ childLines, is_turn_completed (pyStrip l) = false)
    (st : OrchState) (h : OrchReach childLines st) :
    orchInv (childLines.map pyStrip) st := by
  induction h with
  | init =>
    have h0 := orchInv_init (childLines.map pyStrip)
    rw [initOrch, producerPuts_no_term childLines hterm]
    exact h0
  | next hr hstep ih => exact orchInv_step _ _ _ ih hstep

/-- C8 (drain completeness): if the child writes its lines and exits
without ever emitting the terminal marker, every terminating interleaving
of the producer thread and the consuming loop yields exactly the stripped
child lines, in order — including lines still buffered in the channel when
the polling loop exits. -/
theorem claim8_drain_completeness (childLines : List String)
    (hterm : ∀ l ∈ childLines, is_turn_completed (pyStrip l) = false)
    (st : OrchState) (hreach : OrchReach childLines st)
    (hdone : st.phase = Phase.done) :
    st.yielded = childLines.map pyStrip := by
  obtain ⟨hA, hB, hC, hD, hE⟩ := orchReach_inv childLines hterm st hreach
  have h1 : st.chan = [] := hE hdone
  have h2 : st.toPut = [] := hC (by rw [hdone]; intro hx; cases hx)
  rw [h1, h2] at hA
  simpa using hA

theorem claim8_witness :
    (⟨[], [], ["a"], Phase.done⟩ : OrchState).yielded = List.map pyStrip (["a"]) := by
  have h0 : OrchReach (["a"]) (initOrch (["a"])) := OrchReach.init
  have h1 : OrchReach (["a"]) ⟨[none], [some ("a")], [], Phase.main⟩ :=
    OrchReach.next h0 (OrchStep.put (some ("a")) ([none]) [] [])
  have h2 : OrchReach (["a"]) ⟨[], [some ("a"), none], [], Phase.main⟩ :=
    OrchReach.next h1 (OrchStep.put none [] ([some ("a")]) [])
  have h3 : OrchReach (["a"]) ⟨[], [none], ["a"], Phase.main⟩ :=
    OrchReach.next h2 (OrchStep.getLine [] ("a") ([none]) [])
  have h4 : OrchReach (["a"]) ⟨[], [], ["a"], Phase.drain⟩ :=
    OrchReach.next h3 (OrchStep.getSentinel [] [] (["a"]))
  have h5 : OrchReach (["a"]) ⟨[], [], ["a"], Phase.done⟩ :=
    OrchReach.next h4 (OrchStep.finish [] (["a"]))
  exact claim8_drain_completeness (["a"])
    (by intro l hl; simp at hl; subst hl; rfl) _ h5 rfl
